import Mathlib

/-!
# ele-go server: configuration loader and HTTP handlers

A shallow embedding of `server/config/config.go`, `server/api/routes.go`,
`server/middleware/logger.go` and `server/utils/response.go`.

The Go program leans on four libraries (`encoding/json`, `fmt`, `os`, `gin`).  What the
program observes of them is embedded as executable definitions that follow the
libraries' documented behaviour; each such definition says so in its doc comment.
Go's `int` is taken as 64 bits wide.
-/

set_option autoImplicit false

namespace EleGo

/-! ## JSON values as `encoding/json` scans them -/

/-- A JSON value after scanning.  A number keeps `some i` when its literal is an integer
literal (no fraction, no exponent) of value `i`, and `none` otherwise: this is all
`encoding/json` looks at when it stores a number into an `int`. -/
inductive Json where
  | null
  | bool (b : Bool)
  | num (lit : Option Int)
  | str (s : String)
  | arr (xs : List Json)
  | obj (kvs : List (String × Json))

/-- The `Value` text of a `json.UnmarshalTypeError`: the kind of JSON value that did not
fit its Go target (for a number, without the literal that Go appends to the word). -/
structure UnmarshalTypeError where
  Value : String
  deriving DecidableEq, Repr

/-- Case folding of one rune as `bytes.EqualFold` sees it on keys compared with ASCII
field names: upper-case ASCII letters, the long s (U+017F) and the Kelvin sign (U+212A)
fold onto lower-case ASCII letters. -/
def foldRune (c : Char) : Char :=
  if 65 ≤ c.toNat ∧ c.toNat ≤ 90 then Char.ofNat (c.toNat + 32)
  else if c.toNat = 0x17F then 's'
  else if c.toNat = 0x212A then 'k'
  else c

/-- Folded form of a key, as `foldName` of `encoding/json`. -/
def foldName (s : String) : List Char := s.toList.map foldRune

/-- A JSON key selects the struct field tagged `name` when the two are equal, or equal
under case folding. -/
def fieldMatches (key name : String) : Bool :=
  decide (key = name) || decide (foldName key = foldName name)

/-- The `savedError` slot of the decoder: `saveError` keeps the earliest error. -/
def saveError (saved err : Option UnmarshalTypeError) : Option UnmarshalTypeError :=
  match saved with
  | some e => some e
  | none => err

/-- Storing a JSON value into a Go `string`: a string is stored, `null` leaves the
target alone, anything else is a type error and leaves the target alone. -/
def storeString (v : Json) (cur : String) : String × Option UnmarshalTypeError :=
  match v with
  | .null => (cur, none)
  | .str s => (s, none)
  | .bool _ => (cur, some ⟨"bool"⟩)
  | .num _ => (cur, some ⟨"number"⟩)
  | .arr _ => (cur, some ⟨"array"⟩)
  | .obj _ => (cur, some ⟨"object"⟩)

/-- Bounds of a 64-bit `int`. -/
def minInt : Int := -(2 ^ 63)

/-- Largest 64-bit `int`. -/
def maxInt : Int := 2 ^ 63 - 1

/-- Whether an integer fits Go's `int`. -/
def fitsInt (i : Int) : Bool := decide (minInt ≤ i) && decide (i ≤ maxInt)

/-- Storing a JSON value into a Go `int`: an integer literal in range is stored, `null`
leaves the target alone, every other value (a number with a fraction or an exponent, a
number out of range, a string, ...) is a type error and leaves the target alone. -/
def storeInt (v : Json) (cur : Int) : Int × Option UnmarshalTypeError :=
  match v with
  | .null => (cur, none)
  | .num (some i) => if fitsInt i then (i, none) else (cur, some ⟨"number"⟩)
  | .num none => (cur, some ⟨"number"⟩)
  | .bool _ => (cur, some ⟨"bool"⟩)
  | .str _ => (cur, some ⟨"string"⟩)
  | .arr _ => (cur, some ⟨"array"⟩)
  | .obj _ => (cur, some ⟨"object"⟩)

/-- A Go `[]string`: the backing array up to its capacity, and the length. -/
structure StrSlice where
  mem : List String
  len : Nat
  deriving DecidableEq, Repr

/-- The elements of a slice. -/
def StrSlice.toList (s : StrSlice) : List String := s.mem.take s.len

/-- The end of `decodeState.array` for a slice: truncate to the number of elements read,
and replace the slice by a fresh empty one when the JSON array was empty. -/
def arrayFinish (i : Nat) (s : StrSlice) : StrSlice :=
  let s := if i < s.len then { s with len := i } else s
  if i = 0 then ⟨[], 0⟩ else s

/-- Making room for element `i` of a slice, as `decodeState.array` does before decoding
it: when `i` has reached the capacity the slice grows by zeroed memory, and when `i` has
reached the length the length becomes `i + 1`. -/
def growTo (i : Nat) (s : StrSlice) : StrSlice :=
  { mem := if s.mem.length ≤ i then s.mem ++ [""] else s.mem
    len := if s.len ≤ i then i + 1 else s.len }

/-- The loop of `decodeState.array` for a `[]string`: element `i` of the JSON array is
decoded into element `i` of the slice once there is room for it; an element already
there is decoded in place. -/
def arrayLoop : List Json → Nat → StrSlice → Option UnmarshalTypeError →
    StrSlice × Option UnmarshalTypeError
  | [], i, s, e => (arrayFinish i s, e)
  | x :: xs, i, s, e =>
    let s := growTo i s
    let r := storeString x (s.mem.getD i "")
    arrayLoop xs (i + 1) { s with mem := s.mem.set i r.1 } (saveError e r.2)

/-- Storing a JSON value into a Go `[]string`: an array is decoded element by element,
`null` makes the slice nil, anything else is a type error and leaves the slice alone. -/
def storeStrings (v : Json) (cur : StrSlice) : StrSlice × Option UnmarshalTypeError :=
  match v with
  | .null => (⟨[], 0⟩, none)
  | .arr xs => arrayLoop xs 0 cur none
  | .bool _ => (cur, some ⟨"bool"⟩)
  | .num _ => (cur, some ⟨"number"⟩)
  | .str _ => (cur, some ⟨"string"⟩)
  | .obj _ => (cur, some ⟨"object"⟩)

/-! ## `config.go` -/

/-- Application settings (`AppConfig`). -/
structure AppConfig where
  Name : String
  Version : String
  Description : String
  Author : String
  deriving DecidableEq, Repr

/-- Server settings (`ServerConfig`). -/
structure ServerConfig where
  Host : String
  Port : Int
  Mode : String
  AllowOrigins : StrSlice
  ReadTimeout : Int
  WriteTimeout : Int
  deriving DecidableEq, Repr

/-- Logging settings (`LogConfig`). -/
structure LogConfig where
  Level : String
  Format : String
  deriving DecidableEq, Repr

/-- The whole configuration (`Config`). -/
structure Config where
  App : AppConfig
  Server : ServerConfig
  Log : LogConfig
  deriving DecidableEq, Repr

/-- One member of a JSON object decoded into an `AppConfig`. -/
def appMember (st : AppConfig × Option UnmarshalTypeError) (kv : String × Json) :
    AppConfig × Option UnmarshalTypeError :=
  if fieldMatches kv.1 "name" then
    let r := storeString kv.2 st.1.Name
    ({ st.1 with Name := r.1 }, saveError st.2 r.2)
  else if fieldMatches kv.1 "version" then
    let r := storeString kv.2 st.1.Version
    ({ st.1 with Version := r.1 }, saveError st.2 r.2)
  else if fieldMatches kv.1 "description" then
    let r := storeString kv.2 st.1.Description
    ({ st.1 with Description := r.1 }, saveError st.2 r.2)
  else if fieldMatches kv.1 "author" then
    let r := storeString kv.2 st.1.Author
    ({ st.1 with Author := r.1 }, saveError st.2 r.2)
  else st

/-- One member of a JSON object decoded into a `ServerConfig`. -/
def serverMember (st : ServerConfig × Option UnmarshalTypeError) (kv : String × Json) :
    ServerConfig × Option UnmarshalTypeError :=
  if fieldMatches kv.1 "host" then
    let r := storeString kv.2 st.1.Host
    ({ st.1 with Host := r.1 }, saveError st.2 r.2)
  else if fieldMatches kv.1 "port" then
    let r := storeInt kv.2 st.1.Port
    ({ st.1 with Port := r.1 }, saveError st.2 r.2)
  else if fieldMatches kv.1 "mode" then
    let r := storeString kv.2 st.1.Mode
    ({ st.1 with Mode := r.1 }, saveError st.2 r.2)
  else if fieldMatches kv.1 "allowOrigins" then
    let r := storeStrings kv.2 st.1.AllowOrigins
    ({ st.1 with AllowOrigins := r.1 }, saveError st.2 r.2)
  else if fieldMatches kv.1 "readTimeout" then
    let r := storeInt kv.2 st.1.ReadTimeout
    ({ st.1 with ReadTimeout := r.1 }, saveError st.2 r.2)
  else if fieldMatches kv.1 "writeTimeout" then
    let r := storeInt kv.2 st.1.WriteTimeout
    ({ st.1 with WriteTimeout := r.1 }, saveError st.2 r.2)
  else st

/-- One member of a JSON object decoded into a `LogConfig`. -/
def logMember (st : LogConfig × Option UnmarshalTypeError) (kv : String × Json) :
    LogConfig × Option UnmarshalTypeError :=
  if fieldMatches kv.1 "level" then
    let r := storeString kv.2 st.1.Level
    ({ st.1 with Level := r.1 }, saveError st.2 r.2)
  else if fieldMatches kv.1 "format" then
    let r := storeString kv.2 st.1.Format
    ({ st.1 with Format := r.1 }, saveError st.2 r.2)
  else st

/-- Storing a JSON value into a Go struct whose members are decoded by `member`: an
object is decoded member by member in the order of the text, `null` leaves the struct
alone, any other value is a type error. -/
def storeStruct {α : Type}
    (member : α × Option UnmarshalTypeError → String × Json → α × Option UnmarshalTypeError)
    (v : Json) (st : α × Option UnmarshalTypeError) : α × Option UnmarshalTypeError :=
  match v with
  | .obj kvs => kvs.foldl member st
  | .null => st
  | .bool _ => (st.1, saveError st.2 (some ⟨"bool"⟩))
  | .num _ => (st.1, saveError st.2 (some ⟨"number"⟩))
  | .str _ => (st.1, saveError st.2 (some ⟨"string"⟩))
  | .arr _ => (st.1, saveError st.2 (some ⟨"array"⟩))

/-- One member of the top-level JSON object decoded into a `Config`. -/
def configMember (st : Config × Option UnmarshalTypeError) (kv : String × Json) :
    Config × Option UnmarshalTypeError :=
  if fieldMatches kv.1 "app" then
    let r := storeStruct appMember kv.2 (st.1.App, st.2)
    ({ st.1 with App := r.1 }, r.2)
  else if fieldMatches kv.1 "server" then
    let r := storeStruct serverMember kv.2 (st.1.Server, st.2)
    ({ st.1 with Server := r.1 }, r.2)
  else if fieldMatches kv.1 "log" then
    let r := storeStruct logMember kv.2 (st.1.Log, st.2)
    ({ st.1 with Log := r.1 }, r.2)
  else st

/-- The bytes of a file as `json.Unmarshal` sees them: `checkValid` scans the whole
input first, and either rejects it with a syntax error or accepts it as one value. -/
inductive FileData where
  | malformed
  | wellFormed (j : Json)

/-- The error of `json.Unmarshal`. -/
inductive JsonError where
  | syntaxError
  | type (e : UnmarshalTypeError)
  deriving DecidableEq, Repr

/-- The call `json.Unmarshal(data, cfg)`: a syntax error leaves `cfg` untouched; a
well-formed value is decoded to its end, and the earliest type error met on the way is
returned with the configuration as far as it was filled in. -/
def jsonUnmarshal (data : FileData) (cfg : Config) : Config × Option JsonError :=
  match data with
  | .malformed => (cfg, some .syntaxError)
  | .wellFormed j =>
    let r := storeStruct configMember j (cfg, none)
    (r.1, r.2.map JsonError.type)

/-- What the program sees of the file system: whether `os.Stat` succeeds on a path, and
what `os.ReadFile` returns (`none` when it fails). -/
structure FileSystem where
  stat : String → Bool
  readFile : String → Option FileData

/-- The environment: `none` for a variable that is not set. -/
abbrev Env := String → Option String

/-- The call `os.Getenv`: the empty string for a variable that is not set. -/
def Getenv (env : Env) (key : String) : String := (env key).getD ""

/-- The call `filepath.Join` with the path separator `sep`, on elements that need no
cleaning: the non-empty elements joined by the separator. -/
def filepathJoin (sep : String) (elems : List String) : String :=
  sep.intercalate (elems.filter (fun e => e ≠ ""))

/-- The candidate paths of `getConfigFile`, in the order they are tried. -/
def candidates (sep : String) : List String :=
  ["config.json", "../config/config.json", filepathJoin sep ["config", "config.json"]]

/-- The loop of `getConfigFile`. -/
def firstExisting (stat : String → Bool) : List String → String
  | [] => ""
  | path :: rest => if stat path then path else firstExisting stat rest

/-- The function `getConfigFile`. -/
def getConfigFile (sep : String) (stat : String → Bool) : String :=
  firstExisting stat (candidates sep)

/-- The built-in defaults that `Load` starts from. -/
def defaultConfig : Config :=
  { App := { Name := "App Server", Version := "1.0.0",
             Description := "基于Go的桌面应用后端服务", Author := "开发者" }
    Server := { Host := "127.0.0.1", Port := 1313, Mode := "debug",
                AllowOrigins := ⟨["*"], 1⟩, ReadTimeout := 30, WriteTimeout := 30 }
    Log := { Level := "info", Format := "text" } }

/-- A line that `Load` prints. -/
inductive Printed where
  | parseWarning (err : JsonError)
  | loaded (configFile : String)
  deriving DecidableEq, Repr

/-- The first half of `Load`: the defaults, then the configuration file when one is
found and can be read.  The second component is what is printed. -/
def loadFile (sep : String) (fs : FileSystem) : Config × List Printed :=
  let cfg := defaultConfig
  let configFile := getConfigFile sep fs.stat
  if configFile ≠ "" then
    match fs.readFile configFile with
    | some data =>
      match jsonUnmarshal data cfg with
      | (cfg, some err) => (cfg, [.parseWarning err])
      | (cfg, none) => (cfg, [.loaded configFile])
    | none => (cfg, [])
  else (cfg, [])

/-! ## `fmt.Sscanf(port, "%d", &p)` -/

/-- The `space` table of `fmt/scan.go`. -/
def isSpace (c : Char) : Bool :=
  let r := c.toNat
  decide (0x09 ≤ r ∧ r ≤ 0x0d) || decide (r = 0x20) || decide (r = 0x85) ||
  decide (r = 0xa0) || decide (r = 0x1680) || decide (0x2000 ≤ r ∧ r ≤ 0x200a) ||
  decide (0x2028 ≤ r ∧ r ≤ 0x2029) || decide (r = 0x202f) || decide (r = 0x205f) ||
  decide (r = 0x3000)

/-- The method `ss.SkipSpace` of a scan in which a newline is not a space (`Sscanf`):
leading spaces are dropped, and a newline among them is the error `unexpected newline`
(`none`). -/
def skipSpace : List Char → Option (List Char)
  | [] => some []
  | c :: cs =>
    if c = '\n' then none
    else if isSpace c then skipSpace cs
    else some (c :: cs)

/-- A decimal digit. -/
def isDigit (c : Char) : Bool := decide (48 ≤ c.toNat ∧ c.toNat ≤ 57)

/-- The characters `scanNumber` accepts for the verb `%d`: the digits `getBase` gives
for base 10, `"0123456789"` (an underscore is a digit only under `%v`). -/
def isScanDigit (c : Char) : Bool := isDigit c

/-- The value of a run of decimal digits read from the left on top of `acc`; `none`
when a character is not a digit. -/
def digitsValue : List Char → Nat → Option Nat
  | [], acc => some acc
  | c :: cs, acc => if isDigit c then digitsValue cs (acc * 10 + (c.toNat - 48)) else none

/-- The call `strconv.ParseUint(s, 10, 64)` up to the range check, which `ParseInt`
repeats more tightly: a non-empty run of digits has a value, anything else is a syntax
error. -/
def parseDigits (s : List Char) : Option Nat :=
  match s with
  | [] => none
  | _ => digitsValue s 0

/-- The call `strconv.ParseInt(s, 10, 64)`: an optional sign, then digits; `none` for a
syntax error and for a value outside the 64-bit range. -/
def ParseInt (s : List Char) : Option Int :=
  match s with
  | [] => none
  | c :: cs =>
    let neg := decide (c = '-')
    let body := if c = '+' ∨ c = '-' then cs else c :: cs
    match parseDigits body with
    | none => none
    | some un =>
      if !neg && decide (2 ^ 63 ≤ un) then none
      else if neg && decide (2 ^ 63 < un) then none
      else some (if neg then -(un : Int) else (un : Int))

/-- The method `ss.scanInt` for the verb `%d` and a 64-bit target, after the spaces are
skipped: an optional sign and a non-empty run of digits form the token, which `ParseInt`
converts; input after the token is left unread. -/
def scanInt (input : List Char) : Option Int :=
  match input with
  | [] => none
  | c :: cs =>
    let sign := if c = '+' ∨ c = '-' then [c] else []
    let rest := if c = '+' ∨ c = '-' then cs else c :: cs
    let tok := rest.takeWhile isScanDigit
    if tok = [] then none else ParseInt (sign ++ tok)

/-- The call `fmt.Sscanf(str, "%d", &p)`: `some p` when it returns a nil error, `none`
when it returns an error. -/
def sscanfInt (str : String) : Option Int :=
  match skipSpace str.toList with
  | none => none
  | some input => scanInt input

/-- The second half of `Load`: the overrides from `APP_PORT` and `APP_MODE`. -/
def envOverride (env : Env) (cfg : Config) : Config :=
  let port := Getenv env "APP_PORT"
  let cfg :=
    if port ≠ "" then
      match sscanfInt port with
      | some p => { cfg with Server := { cfg.Server with Port := p } }
      | none => cfg
    else cfg
  let mode := Getenv env "APP_MODE"
  if mode ≠ "" then { cfg with Server := { cfg.Server with Mode := mode } } else cfg

/-- The function `Load`, with what it prints. -/
def LoadTraced (sep : String) (fs : FileSystem) (env : Env) : Config × List Printed :=
  let r := loadFile sep fs
  (envOverride env r.1, r.2)

/-- The function `Load`. -/
def Load (sep : String) (fs : FileSystem) (env : Env) : Config :=
  (LoadTraced sep fs env).1

/-- The reading of "`APP_PORT` is a decimal integer `p`": the text is an optional sign
followed by one or more decimal digits, and `p` is the integer they denote, of any
size. -/
def decimalInteger (s : String) : Option Int :=
  match s.toList with
  | [] => none
  | c :: cs =>
    if c = '-' then (parseDigits cs).map (fun (n : Nat) => -(n : Int))
    else if c = '+' then (parseDigits cs).map (fun (n : Nat) => (n : Int))
    else (parseDigits (c :: cs)).map (fun (n : Nat) => (n : Int))

/-- A file system with no file at all. -/
def noFiles : FileSystem := ⟨fun _ => false, fun _ => none⟩

/-- A file system whose only file is `config.json`, with the given content. -/
def onlyConfigJson (data : FileData) : FileSystem :=
  ⟨fun path => decide (path = "config.json"),
   fun path => if path = "config.json" then some data else none⟩

/-- A well-formed configuration file that sets `app.name` and gives `server.port` as a
string. -/
def mistypedPortFile : FileData :=
  .wellFormed (.obj [("app", .obj [("name", .str "X")]),
                     ("server", .obj [("port", .str "8080")])])

/-- The JSON text `{"server":{"port":9000}}`. -/
def port9000 : Json := .obj [("server", .obj [("port", .num (some 9000))])]

/-- An environment in which nothing is set. -/
def emptyEnv : Env := fun _ => none

/-- An environment in which only `APP_PORT` is set. -/
def portEnv (value : String) : Env :=
  fun key => if key = "APP_PORT" then some value else none

/-! ## What a configuration file says about a field -/

/-- The twelve settings of a `Config`. -/
inductive Field where
  | appName | appVersion | appDescription | appAuthor
  | serverHost | serverPort | serverMode | serverAllowOrigins
  | serverReadTimeout | serverWriteTimeout
  | logLevel | logFormat
  deriving DecidableEq, Repr

/-- The JSON tag of the struct a setting lives in. -/
def Field.parent : Field → String
  | .appName | .appVersion | .appDescription | .appAuthor => "app"
  | .serverHost | .serverPort | .serverMode | .serverAllowOrigins
  | .serverReadTimeout | .serverWriteTimeout => "server"
  | .logLevel | .logFormat => "log"

/-- The JSON tag of a setting inside its struct. -/
def Field.tag : Field → String
  | .appName => "name"
  | .appVersion => "version"
  | .appDescription => "description"
  | .appAuthor => "author"
  | .serverHost => "host"
  | .serverPort => "port"
  | .serverMode => "mode"
  | .serverAllowOrigins => "allowOrigins"
  | .serverReadTimeout => "readTimeout"
  | .serverWriteTimeout => "writeTimeout"
  | .logLevel => "level"
  | .logFormat => "format"

/-- The value of a setting: a text, an integer, or a list of texts. -/
inductive FieldValue where
  | text (s : String)
  | int (i : Int)
  | texts (l : List String)
  deriving DecidableEq, Repr

/-- The value a configuration holds for a setting. -/
def Config.get (cfg : Config) : Field → FieldValue
  | .appName => .text cfg.App.Name
  | .appVersion => .text cfg.App.Version
  | .appDescription => .text cfg.App.Description
  | .appAuthor => .text cfg.App.Author
  | .serverHost => .text cfg.Server.Host
  | .serverPort => .int cfg.Server.Port
  | .serverMode => .text cfg.Server.Mode
  | .serverAllowOrigins => .texts cfg.Server.AllowOrigins.toList
  | .serverReadTimeout => .int cfg.Server.ReadTimeout
  | .serverWriteTimeout => .int cfg.Server.WriteTimeout
  | .logLevel => .text cfg.Log.Level
  | .logFormat => .text cfg.Log.Format

/-- The value of the first member of a JSON object whose key selects the field `name`. -/
def lookupField : List (String × Json) → String → Option Json
  | [], _ => none
  | kv :: rest, name => if fieldMatches kv.1 name then some kv.2 else lookupField rest name

/-- The values of the members of a JSON object whose key selects the field `name`, in the
order of the text. -/
def membersNamed : List (String × Json) → String → List Json
  | [], _ => []
  | kv :: rest, name =>
    if fieldMatches kv.1 name then kv.2 :: membersNamed rest name
    else membersNamed rest name

/-- The values of the members that select the field `tag` inside those of the given
values that are objects, in the order of the text. -/
def innerMembers (tag : String) : List Json → List Json
  | [] => []
  | .obj inner :: rest => membersNamed inner tag ++ innerMembers tag rest
  | _ :: rest => innerMembers tag rest

/-- The values of the members `tag` inside the members `parent` of a JSON object, in the
order of the text; empty for a value that is not an object. -/
def nestedMembers (j : Json) (parent tag : String) : List Json :=
  match j with
  | .obj kvs => innerMembers tag (membersNamed kvs parent)
  | _ => []

/-- The reading of "the file sets a field": the values of all the members of the file
that name the setting, inside the members that name its struct, in the order of the
text.  The file omits the setting when there is none, and the last of them is what the
file says last. -/
def fileMembers (j : Json) (f : Field) : List Json := nestedMembers j f.parent f.tag

/-- The Go type of a setting: `string`, `int` or `[]string`. -/
inductive Kind where
  | text
  | int
  | texts
  deriving DecidableEq, Repr

/-- The Go type of each setting. -/
def Field.kind : Field → Kind
  | .serverPort | .serverReadTimeout | .serverWriteTimeout => .int
  | .serverAllowOrigins => .texts
  | _ => .text

/-- A JSON array all of whose elements are strings, as the list of those strings. -/
def asStrings : List Json → Option (List String)
  | [] => some []
  | .str s :: rest => (asStrings rest).map (fun l => s :: l)
  | _ :: _ => none

/-- A JSON value read as a value of a Go type: a string for `string`, an integer literal
that fits `int` for `int`, an array of strings for `[]string`; `none` for every other
value, `null` and an array with a `null` element included. -/
def Kind.accepts : Kind → Json → Option FieldValue
  | .text, .str s => some (.text s)
  | .int, .num (some i) => if fitsInt i then some (.int i) else none
  | .texts, .arr xs => (asStrings xs).map FieldValue.texts
  | _, _ => none

/-- A JSON value read as a value of a setting. -/
def Field.accepts (f : Field) (v : Json) : Option FieldValue := f.kind.accepts v

/-- A JSON value that a Go `string` takes without a type error: a string or `null`. -/
def okString : Json → Bool
  | .null => true
  | .str _ => true
  | _ => false

/-- A JSON value that a Go `int` takes without a type error: an integer literal that
fits, or `null`. -/
def okInt : Json → Bool
  | .null => true
  | .num (some i) => fitsInt i
  | _ => false

/-- A JSON value that a Go `[]string` takes without a type error: an array of strings
and `null`s, or `null`. -/
def okStrings : Json → Bool
  | .null => true
  | .arr xs => xs.all okString
  | _ => false

/-- A JSON value that a Go struct takes without a type error: `null`, or an object all
of whose members are fine. -/
def okObject (okMember : String × Json → Bool) : Json → Bool
  | .null => true
  | .obj kvs => kvs.all okMember
  | _ => false

/-- A member of the object for `app` is fine when it names no field, or its value fits
the field it names. -/
def okAppMember (kv : String × Json) : Bool :=
  if fieldMatches kv.1 "name" then okString kv.2
  else if fieldMatches kv.1 "version" then okString kv.2
  else if fieldMatches kv.1 "description" then okString kv.2
  else if fieldMatches kv.1 "author" then okString kv.2
  else true

/-- A member of the object for `server` is fine when it names no field, or its value
fits the field it names. -/
def okServerMember (kv : String × Json) : Bool :=
  if fieldMatches kv.1 "host" then okString kv.2
  else if fieldMatches kv.1 "port" then okInt kv.2
  else if fieldMatches kv.1 "mode" then okString kv.2
  else if fieldMatches kv.1 "allowOrigins" then okStrings kv.2
  else if fieldMatches kv.1 "readTimeout" then okInt kv.2
  else if fieldMatches kv.1 "writeTimeout" then okInt kv.2
  else true

/-- A member of the object for `log` is fine when it names no field, or its value fits
the field it names. -/
def okLogMember (kv : String × Json) : Bool :=
  if fieldMatches kv.1 "level" then okString kv.2
  else if fieldMatches kv.1 "format" then okString kv.2
  else true

/-- A member of the top-level object is fine when it names no struct, or its value is
`null` or an object whose members are fine. -/
def okConfigMember (kv : String × Json) : Bool :=
  if fieldMatches kv.1 "app" then okObject okAppMember kv.2
  else if fieldMatches kv.1 "server" then okObject okServerMember kv.2
  else if fieldMatches kv.1 "log" then okObject okLogMember kv.2
  else true

/-- The reading of "the file parses successfully" on the file itself: the file is `null`
or an object, every member that names a struct is `null` or an object, and every member
that names a setting is `null` or of the setting's type. -/
def wellTyped (j : Json) : Bool := okObject okConfigMember j

/-- The strings among JSON values, in order. -/
def stringsAmong : List Json → List String
  | [] => []
  | .str s :: rest => s :: stringsAmong rest
  | _ :: rest => stringsAmong rest

/-- The JSON text `{"server":{"allowOrigins":[null,"b"]}}`. -/
def nullOriginFile : Json :=
  .obj [("server", .obj [("allowOrigins", .arr [.null, .str "b"])])]

/-! ## `gin`: the response writer and the context -/

/-- Something written to the body of a response: a JSON value (standing for its
marshalled bytes) or a text. -/
inductive Chunk where
  | json (value : Json)
  | text (s : String)

/-- The response writer of `gin`: the status it holds, and what has gone out to the
client, `none` until the header is written and then the status line and the body. -/
structure ResponseWriter where
  status : Nat
  wire : Option (Nat × List Chunk)

/-- The writer a request starts with: status 200, nothing written. -/
def ResponseWriter.reset : ResponseWriter := ⟨200, none⟩

/-- The method `Written`. -/
def ResponseWriter.Written (w : ResponseWriter) : Bool := w.wire.isSome

/-- The method `WriteHeader`: the status changes only while nothing has been written. -/
def ResponseWriter.WriteHeader (w : ResponseWriter) (code : Nat) : ResponseWriter :=
  if 0 < code ∧ w.status ≠ code then
    if w.Written then w else { w with status := code }
  else w

/-- The method `WriteHeaderNow`: the status line goes out, once. -/
def ResponseWriter.WriteHeaderNow (w : ResponseWriter) : ResponseWriter :=
  if !w.Written then { w with wire := some (w.status, []) } else w

/-- The method `Write`: the header goes out if it has not yet, then the data. -/
def ResponseWriter.Write (w : ResponseWriter) (data : Chunk) : ResponseWriter :=
  let w := w.WriteHeaderNow
  { w with wire := w.wire.map (fun sent => (sent.1, sent.2 ++ [data])) }

/-- The body of a request as a JSON decoder meets it: nothing to read, text that is not
JSON, or a JSON value (what follows the value in the stream is not read). -/
inductive RequestBody where
  | empty
  | malformed
  | value (j : Json)

/-- An HTTP request: method, path, the pairs of the parsed query in their order, body. -/
structure HttpRequest where
  method : String
  path : String
  query : List (String × String)
  body : RequestBody

/-- The context of `gin` as the handlers use it. -/
structure Context where
  Request : HttpRequest
  Writer : ResponseWriter
  index : Int

/-- The index that marks an aborted chain. -/
def abortIndex : Int := 63

/-- The context the engine hands to the chain of a request. -/
def Context.reset (req : HttpRequest) : Context := ⟨req, ResponseWriter.reset, -1⟩

/-- The method `Abort`. -/
def Context.Abort (c : Context) : Context := { c with index := abortIndex }

/-- The method `IsAborted`. -/
def Context.IsAborted (c : Context) : Bool := decide (abortIndex ≤ c.index)

/-- The method `Status`. -/
def Context.Status (c : Context) (code : Nat) : Context :=
  { c with Writer := c.Writer.WriteHeader code }

/-- The function `bodyAllowedForStatus`. -/
def bodyAllowedForStatus (status : Nat) : Bool :=
  !(decide (100 ≤ status ∧ status ≤ 199) || decide (status = 204) || decide (status = 304))

/-- The method `Render` for a body whose rendering does not fail. -/
def Context.Render (c : Context) (code : Nat) (data : Chunk) : Context :=
  let c := c.Status code
  if !bodyAllowedForStatus code then { c with Writer := c.Writer.WriteHeaderNow }
  else { c with Writer := c.Writer.Write data }

/-- The method `JSON`. -/
def Context.JSON (c : Context) (code : Nat) (obj : Json) : Context :=
  c.Render code (.json obj)

/-- The method `AbortWithStatus`. -/
def Context.AbortWithStatus (c : Context) (code : Nat) : Context :=
  let c := c.Status code
  Context.Abort { c with Writer := c.Writer.WriteHeaderNow }

/-- The method `GetQuery`: the first value the query gives for a key. -/
def Context.GetQuery (c : Context) (key : String) : Option String :=
  (c.Request.query.find? (fun kv => kv.1 == key)).map (fun kv => kv.2)

/-- The method `DefaultQuery`. -/
def Context.DefaultQuery (c : Context) (key defaultValue : String) : String :=
  match c.GetQuery key with
  | some value => value
  | none => defaultValue

/-- What the client has received: the status line and the body. -/
def Context.response (c : Context) : Option (Nat × List Chunk) := c.Writer.wire

/-- The keys of a JSON object, in order; empty for any other value. -/
def Json.keys : Json → List String
  | .obj kvs => kvs.map (fun kv => kv.1)
  | _ => []

/-- The keys of the JSON object a context has sent as its body; empty when the body is
not a single JSON value. -/
def Context.sentKeys (c : Context) : List String :=
  match c.response with
  | some (_, [.json j]) => j.keys
  | _ => []

/-- The status line a context has sent, 0 when none has gone out. -/
def Context.sentStatus (c : Context) : Nat :=
  match c.response with
  | some (status, _) => status
  | none => 0

/-- The method `String`, called with a format and no values: the format is the body. -/
def Context.String (c : Context) (code : Nat) (format : String) : Context :=
  c.Render code (.text format)

/-! ## `routes.go` -/

/-- The clock at the moment a handler reads it: `time.Now().Unix()`, and
`time.Now().Format("2006-01-02 15:04:05")`. -/
structure Clock where
  unix : Int
  text : String

/-- Go's `<` on strings, on their characters: the first position where two strings
differ decides, and a proper prefix is less (the order of the code points is the order of
the UTF-8 bytes). -/
def charsLess : List Char → List Char → Bool
  | _, [] => false
  | [], _ :: _ => true
  | a :: as, b :: bs =>
    decide (a.toNat < b.toNat) || (decide (a.toNat = b.toNat) && charsLess as bs)

/-- Go's `<` on strings. -/
def keyLess (a b : String) : Bool := charsLess a.toList b.toList

/-- One member put in its place among members already sorted by key. -/
def insertMember (kv : String × Json) : List (String × Json) → List (String × Json)
  | [] => [kv]
  | x :: rest => if keyLess kv.1 x.1 then kv :: x :: rest else x :: insertMember kv rest

/-- Members sorted by key. -/
def sortMembers : List (String × Json) → List (String × Json)
  | [] => []
  | kv :: rest => insertMember kv (sortMembers rest)

/-- What `json.Marshal` writes for a `gin.H` (a Go map, given here by the members of its
literal): an object whose members are sorted by key. -/
def marshalH (h : List (String × Json)) : Json := .obj (sortMembers h)

/-- The handler `healthCheck`. -/
def healthCheck (cfg : Config) (now : Clock) (c : Context) : Context :=
  c.JSON 200 (marshalH [("status", .str "ok"), ("timestamp", .num (some now.unix)),
    ("service", .str cfg.App.Name), ("version", .str cfg.App.Version)])

/-- The handler `getSystemInfo`. -/
def getSystemInfo (cfg : Config) (now : Clock) (c : Context) : Context :=
  c.JSON 200 (marshalH [
    ("app", marshalH [("name", .str cfg.App.Name), ("version", .str cfg.App.Version),
      ("description", .str cfg.App.Description), ("author", .str cfg.App.Author)]),
    ("server", marshalH [("host", .str cfg.Server.Host),
      ("port", .num (some cfg.Server.Port)), ("mode", .str cfg.Server.Mode)]),
    ("timestamp", .num (some now.unix))])

/-- The handler `sayHello`. -/
def sayHello (now : Clock) (c : Context) : Context :=
  let name := c.DefaultQuery "name" "World"
  c.JSON 200 (marshalH [("message", .str ("Hello, " ++ name ++ "!")),
    ("time", .str now.text)])

/-- The request struct of `echoMessage`. -/
structure EchoRequest where
  Message : String
  deriving DecidableEq, Repr

/-- One member of a JSON object decoded into the request struct. -/
def echoMember (st : EchoRequest × Option UnmarshalTypeError) (kv : String × Json) :
    EchoRequest × Option UnmarshalTypeError :=
  if fieldMatches kv.1 "message" then
    let r := storeString kv.2 st.1.Message
    ({ st.1 with Message := r.1 }, saveError st.2 r.2)
  else st

/-- The error of `ShouldBindJSON`: the decoder found no value (`io.EOF`), found text
that is not JSON, found a value of the wrong type, or the validator rejected the struct
for its `required` tag. -/
inductive BindError where
  | eof
  | syntaxError
  | type (e : UnmarshalTypeError)
  | required
  deriving DecidableEq, Repr

/-- The method `ShouldBindJSON` on the request struct: the first JSON value of the body
is decoded into the struct, and the struct is then validated, `binding:"required"`
rejecting a `Message` that is the empty string. -/
def ShouldBindJSON (c : Context) (request : EchoRequest) : EchoRequest × Option BindError :=
  match c.Request.body with
  | .empty => (request, some .eof)
  | .malformed => (request, some .syntaxError)
  | .value j =>
    match storeStruct echoMember j (request, none) with
    | (request, some e) => (request, some (.type e))
    | (request, none) =>
      if request.Message = "" then (request, some .required) else (request, none)

/-- The handler `echoMessage`; `errorText` is the method `Error` of the errors. -/
def echoMessage (errorText : BindError → String) (now : Clock) (c : Context) : Context :=
  match ShouldBindJSON c ⟨""⟩ with
  | (_, some err) =>
    c.JSON 400 (marshalH [("error", .str ("请求参数错误: " ++ errorText err))])
  | (request, none) =>
    c.JSON 200 (marshalH [("echo", .str request.Message),
      ("timestamp", .num (some now.unix))])

/-- The handlers that `RegisterRoutes` registers. -/
inductive Handler where
  | healthCheck
  | getSystemInfo
  | sayHello
  | echoMessage
  deriving DecidableEq, Repr

/-- The routes of `RegisterRoutes`: method, path (the group path `/api/v1` joined with
the path inside the group), handler. -/
def routes : List (String × String × Handler) :=
  [("GET", "/health", .healthCheck),
   ("GET", "/api/v1" ++ "/info", .getSystemInfo),
   ("GET", "/api/v1" ++ "/hello", .sayHello),
   ("POST", "/api/v1" ++ "/echo", .echoMessage)]

/-- Running a registered handler. -/
def Handler.run (cfg : Config) (errorText : BindError → String) (now : Clock) :
    Handler → Context → Context
  | .healthCheck => EleGo.healthCheck cfg now
  | .getSystemInfo => EleGo.getSystemInfo cfg now
  | .sayHello => EleGo.sayHello now
  | .echoMessage => EleGo.echoMessage errorText now

/-- The handler registered for a method and a path. -/
def findRoute (method path : String) : Option Handler :=
  (routes.find? (fun r => r.1 == method && r.2.1 == path)).map (fun r => r.2.2)

/-- A request served by the handler of its route, on the context the engine hands over;
`none` when no route matches. -/
def serve (cfg : Config) (errorText : BindError → String) (now : Clock) (req : HttpRequest) :
    Option Context :=
  (findRoute req.method req.path).map (fun h => h.run cfg errorText now (Context.reset req))

/-! ## `logger.go`: the handler of `Recovery` -/

/-- The value `recover()` returned: a string, or a value of another type (of which only
a description is kept). -/
inductive Recovered where
  | str (s : String)
  | other (description : String)

/-- The function that `Recovery` passes to `gin.RecoveryWithWriter`. -/
def recoveryHandle (c : Context) (recovered : Recovered) : Context :=
  let c :=
    match recovered with
    | .str err => c.String 500 ("内部服务器错误: " ++ err)
    | .other _ => c
  c.AbortWithStatus 500

/-! ## `response.go` and `time.go` -/

/-- The struct `APIResponse`. -/
structure APIResponse where
  Success : Bool
  Message : String
  Data : Option Json
  Error : String
  Timestamp : Int

/-- The JSON object `json.Marshal` writes for an `APIResponse`: `message`, `data` and
`error` carry `omitempty`. -/
def APIResponse.marshal (r : APIResponse) : Json :=
  .obj ([("success", .bool r.Success)] ++
    (if r.Message = "" then [] else [("message", .str r.Message)]) ++
    (match r.Data with
     | some d => [("data", d)]
     | none => []) ++
    (if r.Error = "" then [] else [("error", .str r.Error)]) ++
    [("timestamp", .num (some r.Timestamp))])

/-- The function `GetCurrentTimestamp`. -/
def GetCurrentTimestamp (now : Clock) : Int := now.unix

/-- The function `SuccessResponse`; `message` holds the variadic arguments. -/
def SuccessResponse (now : Clock) (c : Context) (data : Option Json) (message : List String) :
    Context :=
  let msg :=
    match message with
    | m :: _ => m
    | [] => "success"
  c.JSON 200 (APIResponse.marshal
    { Success := true, Message := msg, Data := data, Error := "",
      Timestamp := GetCurrentTimestamp now })

/-- The function `ErrorResponse`. -/
def ErrorResponse (now : Clock) (c : Context) (statusCode : Nat) (error : String) : Context :=
  c.JSON statusCode (APIResponse.marshal
    { Success := false, Message := "", Data := none, Error := error,
      Timestamp := GetCurrentTimestamp now })

/-- The context of a `GET /health` after `healthCheck` has answered it. -/
def answeredContext : Context :=
  healthCheck defaultConfig ⟨0, ""⟩ (Context.reset ⟨"GET", "/health", [], .empty⟩)

/-- A `POST /api/v1/echo` with the given body. -/
def echoRequest (body : Json) : HttpRequest := ⟨"POST", "/api/v1/echo", [], .value body⟩

/-! ## Properties of the configuration loader -/

theorem filepathJoin_config (sep : String) :
    filepathJoin sep ["config", "config.json"] = "config" ++ sep ++ "config.json" := by
  simp [filepathJoin, String.intercalate, String.intercalate.go]

theorem filepathJoin_config_ne (sep : String) :
    filepathJoin sep ["config", "config.json"] ≠ "" := by
  rw [filepathJoin_config]
  intro h
  have := congrArg String.length h
  simp only [String.length_append] at this
  have h6 : "config".length = 6 := by decide
  have h0 : "".length = 0 := by decide
  omega

theorem isDigit_not_space {c : Char} (h : isDigit c = true) :
    c ≠ '\n' ∧ isSpace c = false ∧ c ≠ '+' ∧ c ≠ '-' := by
  simp only [isDigit, decide_eq_true_eq] at h
  refine ⟨?_, ?_, ?_, ?_⟩
  · rintro rfl; simp at h
  · simp only [isSpace, Bool.or_eq_false_iff, decide_eq_false_iff_not]
    omega
  · rintro rfl; simp at h
  · rintro rfl; simp at h

theorem digitsValue_all : ∀ (cs : List Char) (acc n : Nat),
    digitsValue cs acc = some n → ∀ c ∈ cs, isDigit c = true
  | [], _, _, _ => by simp
  | d :: ds, acc, n, h => by
    unfold digitsValue at h
    split at h
    · rename_i hd
      intro c hc
      rcases List.mem_cons.mp hc with rfl | hc
      · exact hd
      · exact digitsValue_all ds _ n h c hc
    · cases h

theorem parseDigits_some {cs : List Char} {n : Nat} (h : parseDigits cs = some n) :
    cs ≠ [] ∧ (∀ c ∈ cs, isDigit c = true) ∧ cs.takeWhile isScanDigit = cs := by
  cases cs with
  | nil => simp [parseDigits] at h
  | cons d ds =>
    have hall := digitsValue_all (d :: ds) 0 n (by simpa [parseDigits] using h)
    refine ⟨by simp, hall, ?_⟩
    rw [List.takeWhile_eq_self_iff]
    intro c hc
    simp [isScanDigit, hall c hc]

theorem fitsInt_iff (p : Int) : fitsInt p = true ↔ -(2 ^ 63 : Int) ≤ p ∧ p ≤ 2 ^ 63 - 1 := by
  simp [fitsInt, minInt, maxInt]

theorem scanInt_minus (cs : List Char) (h : cs.takeWhile isScanDigit = cs) (hne : cs ≠ []) :
    scanInt ('-' :: cs) = ParseInt ('-' :: cs) := by
  simp [scanInt, h, hne]

theorem scanInt_plus (cs : List Char) (h : cs.takeWhile isScanDigit = cs) (hne : cs ≠ []) :
    scanInt ('+' :: cs) = ParseInt ('+' :: cs) := by
  simp [scanInt, h, hne]

theorem scanInt_digit (c : Char) (cs : List Char) (hq : c ≠ '+') (hm : c ≠ '-')
    (h : (c :: cs).takeWhile isScanDigit = c :: cs) :
    scanInt (c :: cs) = ParseInt (c :: cs) := by
  simp only [scanInt, hq, hm, or_self, if_false, h]
  simp

/-- A decimal integer that fits `int` is what `Sscanf` scans from its text. -/
theorem sscanfInt_decimal {s : String} {p : Int} (hs : decimalInteger s = some p)
    (hp : fitsInt p = true) : sscanfInt s = some p := by
  rw [fitsInt_iff] at hp
  simp only [decimalInteger, String.toList] at hs
  simp only [sscanfInt, String.toList]
  generalize s.data = l at hs ⊢
  cases l with
  | nil => simp at hs
  | cons c cs =>
    simp only at hs
    by_cases hm : c = '-'
    · subst hm
      simp only [if_true] at hs
      cases hn : parseDigits cs with
      | none => simp [hn] at hs
      | some n =>
        simp only [hn, Option.map_some', Option.some.injEq] at hs
        subst hs
        obtain ⟨hne, -, htw⟩ := parseDigits_some hn
        have h1 : skipSpace ('-' :: cs) = some ('-' :: cs) := by
          simp [skipSpace, isSpace]
        have hn' : ¬ (9223372036854775808 < n) := by omega
        rw [h1]
        simp only [scanInt_minus cs htw hne]
        simp [ParseInt, hn, hn']
    · by_cases hq : c = '+'
      · subst hq
        simp only [hm, if_false, if_true] at hs
        cases hn : parseDigits cs with
        | none => simp [hn] at hs
        | some n =>
          simp only [hn, Option.map_some', Option.some.injEq] at hs
          subst hs
          obtain ⟨hne, -, htw⟩ := parseDigits_some hn
          have h1 : skipSpace ('+' :: cs) = some ('+' :: cs) := by
            simp [skipSpace, isSpace]
          have hn' : n < 9223372036854775808 := by omega
          rw [h1]
          simp only [scanInt_plus cs htw hne]
          simp [ParseInt, hn, hn']
      · simp only [hm, hq, if_false] at hs
        cases hn : parseDigits (c :: cs) with
        | none => simp [hn] at hs
        | some n =>
          simp only [hn, Option.map_some', Option.some.injEq] at hs
          subst hs
          obtain ⟨-, hall, htw⟩ := parseDigits_some hn
          obtain ⟨hnl, hsp, -, -⟩ := isDigit_not_space (hall c (List.mem_cons_self c cs))
          have h1 : skipSpace (c :: cs) = some (c :: cs) := by
            simp [skipSpace, hnl, hsp]
          have hn' : n < 9223372036854775808 := by omega
          rw [h1]
          simp only [scanInt_digit c cs hq hm htw]
          simp [ParseInt, hm, hq, hn, hn']

theorem envOverride_port_some (env : Env) (cfg : Config) (s : String) (p : Int)
    (hs : env "APP_PORT" = some s) (hne : s ≠ "") (hp : sscanfInt s = some p) :
    (envOverride env cfg).Server.Port = p := by
  unfold envOverride
  simp only [Getenv, hs, Option.getD_some, hne, ne_eq, not_false_eq_true, if_true, hp]
  split <;> rfl

theorem envOverride_port_keep (env : Env) (cfg : Config)
    (h : Getenv env "APP_PORT" = "" ∨ sscanfInt (Getenv env "APP_PORT") = none) :
    (envOverride env cfg).Server.Port = cfg.Server.Port := by
  unfold envOverride
  rcases h with h | h
  · simp only [h, ne_eq, not_true_eq_false, if_false]
    split <;> rfl
  · simp only [h]
    split <;> split <;> rfl

theorem envOverride_mode (env : Env) (cfg : Config) :
    (envOverride env cfg).Server.Mode =
      if Getenv env "APP_MODE" = "" then cfg.Server.Mode else Getenv env "APP_MODE" := by
  unfold envOverride
  by_cases hm : Getenv env "APP_MODE" = ""
  · simp only [hm, ne_eq, not_true_eq_false, if_false, if_true]
    split
    · split <;> rfl
    · rfl
  · simp only [hm, ne_eq, not_false_eq_true, if_true, if_false]

theorem decimalInteger_ne_empty {s : String} {p : Int} (h : decimalInteger s = some p) :
    s ≠ "" := by
  rintro rfl
  simp [decimalInteger] at h

theorem loadFile_noFile (sep : String) (fs : FileSystem)
    (h : getConfigFile sep fs.stat = "") : loadFile sep fs = (defaultConfig, []) := by
  simp [loadFile, h]

/-- A file that `json.Unmarshal` rejects for its syntax leaves `Load` with the result it
has when there is no file. -/
theorem Load_malformed (sep : String) (fs fs0 : FileSystem) (env : Env)
    (hfile : fs.readFile (getConfigFile sep fs.stat) = some .malformed)
    (h0 : getConfigFile sep fs0.stat = "") :
    Load sep fs env = Load sep fs0 env := by
  unfold Load LoadTraced
  rw [loadFile_noFile sep fs0 h0]
  unfold loadFile
  by_cases hc : getConfigFile sep fs.stat = ""
  · simp [hc]
  · simp [hc, hfile, jsonUnmarshal]

/-- C3: `getConfigFile` returns the first of `config.json`, `../config/config.json` and
the join of `config` with `config.json` on which `os.Stat` succeeds, returns the empty
string exactly when it succeeds on none of them, and the third path is
`config/config.json` where the separator is a slash. -/
theorem getConfigFile_first_existing (sep : String) (stat : String → Bool) :
    getConfigFile sep stat =
      (if stat "config.json" then "config.json"
       else if stat "../config/config.json" then "../config/config.json"
       else if stat (filepathJoin sep ["config", "config.json"]) then
         filepathJoin sep ["config", "config.json"]
       else "") ∧
    (getConfigFile sep stat = "" ↔
      stat "config.json" = false ∧ stat "../config/config.json" = false ∧
      stat (filepathJoin sep ["config", "config.json"]) = false) ∧
    filepathJoin "/" ["config", "config.json"] = "config/config.json" := by
  have hne := filepathJoin_config_ne sep
  refine ⟨by simp [getConfigFile, candidates, firstExisting], ?_, by decide⟩
  simp only [getConfigFile, candidates, firstExisting]
  cases h1 : stat "config.json" <;> cases h2 : stat "../config/config.json" <;>
    cases h3 : stat (filepathJoin sep ["config", "config.json"]) <;> simp [hne]

theorem sscanfInt_no_number (s : String) (c : Char) (cs : List Char)
    (hs : s.toList = c :: cs) (hsp : isSpace c = false) (hd : isDigit c = false)
    (hplus : c ≠ '+') (hminus : c ≠ '-') : sscanfInt s = none := by
  have hnl : c ≠ '\n' := by
    rintro rfl
    simp [isSpace] at hsp
  have hl : s.data = c :: cs := hs
  have hskip : skipSpace (c :: cs) = some (c :: cs) := by
    simp [skipSpace, hnl, hsp]
  have htok : (c :: cs).takeWhile isScanDigit = [] := by
    simp [List.takeWhile, isScanDigit, hd]
  simp only [sscanfInt, String.toList, hl, hskip, scanInt, hplus, hminus, or_self, if_false,
    htok]
  rfl

/-- C10: when `APP_PORT` is unset, empty, or a text from which `Sscanf` scans no integer
(such as `abc`, or any text that begins with a character that is neither a space, a sign
nor a digit), `Load` leaves `Server.Port` at the value the file step gave it, which is
1313 when no configuration file is found; when `APP_MODE` is unset or empty `Server.Mode`
is left alone, and a non-empty `APP_MODE` always becomes `Server.Mode`. -/
theorem Load_env_fallback (sep : String) (fs : FileSystem) (env : Env) :
    ((env "APP_PORT" = none ∨ env "APP_PORT" = some "" ∨
        ∃ s, env "APP_PORT" = some s ∧ sscanfInt s = none) →
      (Load sep fs env).Server.Port = (loadFile sep fs).1.Server.Port) ∧
    ((env "APP_MODE" = none ∨ env "APP_MODE" = some "") →
      (Load sep fs env).Server.Mode = (loadFile sep fs).1.Server.Mode) ∧
    (∀ m, env "APP_MODE" = some m → m ≠ "" → (Load sep fs env).Server.Mode = m) ∧
    (getConfigFile sep fs.stat = "" → (loadFile sep fs).1.Server.Port = 1313) ∧
    sscanfInt "abc" = none ∧
    (∀ s c cs, env "APP_PORT" = some s → s.toList = c :: cs → isSpace c = false →
      isDigit c = false → c ≠ '+' → c ≠ '-' →
      (Load sep fs env).Server.Port = (loadFile sep fs).1.Server.Port) := by
  have hkeep : (env "APP_PORT" = none ∨ env "APP_PORT" = some "" ∨
        ∃ s, env "APP_PORT" = some s ∧ sscanfInt s = none) →
      (Load sep fs env).Server.Port = (loadFile sep fs).1.Server.Port := by
    intro h
    apply envOverride_port_keep
    rcases h with h | h | ⟨s, h, hs⟩
    · left; simp [Getenv, h]
    · left; simp [Getenv, h]
    · right; simpa [Getenv, h] using hs
  refine ⟨hkeep, ?_, ?_, ?_, by decide, ?_⟩
  · intro h
    show (envOverride env _).Server.Mode = _
    rw [envOverride_mode]
    rcases h with h | h <;> simp [Getenv, h]
  · intro m h hm
    show (envOverride env _).Server.Mode = _
    rw [envOverride_mode]
    simp [Getenv, h, hm]
  · intro h
    rw [loadFile_noFile sep fs h]
    rfl
  · intro s c cs henv hs hsp hd hplus hminus
    exact hkeep (Or.inr (Or.inr ⟨s, henv, sscanfInt_no_number s c cs hs hsp hd hplus hminus⟩))

/-- Witness of C10: no file and `APP_PORT=abc` leave the port at 1313. -/
theorem Load_env_fallback_witness :
    (Load "/" noFiles (portEnv "abc")).Server.Port = (loadFile "/" noFiles).1.Server.Port :=
  (Load_env_fallback "/" noFiles (portEnv "abc")).1
    (Or.inr (Or.inr ⟨"abc", by decide, by decide⟩))

/-- C1, amended: whatever the configuration file holds, when `APP_PORT` is a decimal
integer `p` that fits a 64-bit `int`, `Load` returns `Server.Port = p`. -/
theorem Load_env_port_wins (sep : String) (fs : FileSystem) (env : Env) (s : String)
    (p : Int) (hs : env "APP_PORT" = some s) (hd : decimalInteger s = some p)
    (hp : fitsInt p = true) : (Load sep fs env).Server.Port = p :=
  envOverride_port_some env _ s p hs (decimalInteger_ne_empty hd) (sscanfInt_decimal hd hp)

/-- Witness of C1: `APP_PORT=8080` beats the port 9000 of the file. -/
theorem Load_env_port_wins_witness :
    (Load "/" (onlyConfigJson (.wellFormed (.obj [("server", .obj [("port", .num (some 9000))])])))
      (portEnv "8080")).Server.Port = 8080 :=
  Load_env_port_wins "/" _ (portEnv "8080") "8080" 8080 (by decide) (by decide) (by decide)

/-- C1 as stated fails: `APP_PORT=9223372036854775808` is a decimal integer, and `Load`
leaves the port at 1313. -/
theorem Load_env_port_overflow :
    decimalInteger "9223372036854775808" = some 9223372036854775808 ∧
    (Load "/" noFiles (portEnv "9223372036854775808")).Server.Port = 1313 ∧
    (Load "/" noFiles (portEnv "9223372036854775808")).Server.Port ≠ 9223372036854775808 := by
  decide

/-- C2 at a well-formed file with a mistyped field: `json.Unmarshal` returns a type
error, `Load` prints the warning, and the returned configuration holds the file's
`app.name` where the configuration loaded without a file holds the default. -/
theorem Load_type_error_keeps_file_values :
    (jsonUnmarshal mistypedPortFile defaultConfig).2 = some (.type ⟨"string"⟩) ∧
    (LoadTraced "/" (onlyConfigJson mistypedPortFile) emptyEnv).2 =
      [.parseWarning (.type ⟨"string"⟩)] ∧
    (Load "/" (onlyConfigJson mistypedPortFile) emptyEnv).App.Name = "X" ∧
    (Load "/" noFiles emptyEnv).App.Name = "App Server" ∧
    Load "/" (onlyConfigJson mistypedPortFile) emptyEnv ≠ Load "/" noFiles emptyEnv := by
  decide

/-! ## Decoding a file, field by field -/

theorem fieldMatches_iff (key name : String) :
    fieldMatches key name = true ↔ foldName key = foldName name := by
  unfold fieldMatches
  constructor
  · intro h
    rcases Bool.or_eq_true_iff.mp h with h | h
    · rw [of_decide_eq_true h]
    · exact of_decide_eq_true h
  · intro h
    simp [h]

/-- The value a fold computes does not depend on the error it starts with. -/
theorem foldl_fst_indep {α κ : Type} (step : α × Option UnmarshalTypeError → κ →
      α × Option UnmarshalTypeError)
    (hstep : ∀ a e e2 kv, (step (a, e) kv).1 = (step (a, e2) kv).1) :
    ∀ (kvs : List κ) (a : α) (e e2 : Option UnmarshalTypeError),
      (kvs.foldl step (a, e)).1 = (kvs.foldl step (a, e2)).1
  | [], _, _, _ => rfl
  | kv :: rest, a, e, e2 => by
    simp only [List.foldl_cons]
    have h := hstep a e e2 kv
    rw [show step (a, e) kv = ((step (a, e) kv).1, (step (a, e) kv).2) from rfl,
      show step (a, e2) kv = ((step (a, e2) kv).1, (step (a, e2) kv).2) from rfl, h]
    exact foldl_fst_indep step hstep rest _ _ _

theorem take_succ_set {α : Type} : ∀ (l : List α) (i : Nat) (a : α), i < l.length →
    (l.set i a).take (i + 1) = l.take i ++ [a]
  | [], _, _, h => by simp at h
  | x :: xs, 0, a, _ => by simp
  | x :: xs, i + 1, a, h => by
    have := take_succ_set xs i a (by simpa using h)
    simp [List.set, List.take, this]

theorem growTo_spec (i : Nat) (s : StrSlice) (hi : i ≤ s.len) (hlen : s.len ≤ s.mem.length) :
    i < (growTo i s).mem.length ∧ i + 1 ≤ (growTo i s).len ∧
    (growTo i s).len ≤ (growTo i s).mem.length ∧ (growTo i s).mem.take i = s.mem.take i := by
  unfold growTo
  by_cases hg : s.mem.length ≤ i
  · have hmi : s.mem.length = i := by omega
    have hli : s.len ≤ i := by omega
    simp only [hg, hli, if_true, List.length_append, List.length_singleton]
    refine ⟨by omega, by omega, by omega, ?_⟩
    rw [List.take_append_of_le_length (by omega)]
  · by_cases hli : s.len ≤ i
    · simp only [hg, hli, if_true, if_false]
      exact ⟨by omega, by omega, by omega, trivial⟩
    · simp only [hg, hli, if_false]
      exact ⟨by omega, by omega, by omega, trivial⟩

theorem arrayLoop_strings : ∀ (xs : List Json) (l : List String) (i : Nat) (s : StrSlice)
    (e : Option UnmarshalTypeError), asStrings xs = some l → i ≤ s.len →
    s.len ≤ s.mem.length → (arrayLoop xs i s e).1.toList = s.mem.take i ++ l
  | [], l, i, s, e, hl, hi, hlen => by
    simp only [asStrings, Option.some.injEq] at hl
    subst hl
    simp only [arrayLoop, arrayFinish, StrSlice.toList, List.append_nil]
    by_cases h0 : i = 0
    · simp [h0]
    · simp only [h0, if_false]
      by_cases hlt : i < s.len
      · simp [hlt]
      · have : s.len = i := by omega
        simp [hlt, this]
  | x :: xs, l, i, s, e, hl, hi, hlen => by
    cases x with
    | str a =>
      simp only [asStrings, Option.map_eq_some'] at hl
      obtain ⟨l2, hl2, rfl⟩ := hl
      obtain ⟨h1, h2, h3, h4⟩ := growTo_spec i s hi hlen
      simp only [arrayLoop, storeString]
      rw [arrayLoop_strings xs l2 (i + 1) ⟨(growTo i s).mem.set i a, (growTo i s).len⟩ _ hl2 h2
        (by simpa using h3)]
      simp only []
      rw [take_succ_set _ _ _ h1, h4]
      simp
    | _ => simp [asStrings] at hl

theorem saveError_eq_none_iff (a b : Option UnmarshalTypeError) :
    saveError a b = none ↔ a = none ∧ b = none := by
  cases a <;> cases b <;> simp [saveError]

theorem storeStruct_fst_indep {α : Type}
    (member : α × Option UnmarshalTypeError → String × Json → α × Option UnmarshalTypeError)
    (hind : ∀ a e e2 kv, (member (a, e) kv).1 = (member (a, e2) kv).1)
    (v : Json) (a : α) (e e2 : Option UnmarshalTypeError) :
    (storeStruct member v (a, e)).1 = (storeStruct member v (a, e2)).1 := by
  cases v with
  | obj kvs => exact foldl_fst_indep member hind kvs a e e2
  | _ => rfl

theorem foldName_lits :
    foldName "app" = ['a', 'p', 'p'] ∧
    foldName "server" = ['s', 'e', 'r', 'v', 'e', 'r'] ∧
    foldName "log" = ['l', 'o', 'g'] ∧
    foldName "name" = ['n', 'a', 'm', 'e'] ∧
    foldName "version" = ['v', 'e', 'r', 's', 'i', 'o', 'n'] ∧
    foldName "description" = ['d', 'e', 's', 'c', 'r', 'i', 'p', 't', 'i', 'o', 'n'] ∧
    foldName "author" = ['a', 'u', 't', 'h', 'o', 'r'] ∧
    foldName "host" = ['h', 'o', 's', 't'] ∧
    foldName "port" = ['p', 'o', 'r', 't'] ∧
    foldName "mode" = ['m', 'o', 'd', 'e'] ∧
    foldName "allowOrigins" = ['a', 'l', 'l', 'o', 'w', 'o', 'r', 'i', 'g', 'i', 'n', 's'] ∧
    foldName "readTimeout" = ['r', 'e', 'a', 'd', 't', 'i', 'm', 'e', 'o', 'u', 't'] ∧
    foldName "writeTimeout" = ['w', 'r', 'i', 't', 'e', 't', 'i', 'm', 'e', 'o', 'u', 't'] ∧
    foldName "level" = ['l', 'e', 'v', 'e', 'l'] ∧
    foldName "format" = ['f', 'o', 'r', 'm', 'a', 't'] := by
  decide

theorem appMember_indep (a : AppConfig) (e e2 : Option UnmarshalTypeError) (kv : String × Json) :
    (appMember (a, e) kv).1 = (appMember (a, e2) kv).1 := by
  simp only [appMember]
  split_ifs <;> rfl

theorem appMember_Name (st : AppConfig × Option UnmarshalTypeError) (kv : String × Json) :
    (appMember st kv).1.Name =
      if fieldMatches kv.1 "name" = true then (storeString kv.2 st.1.Name).1 else st.1.Name := by
  simp only [appMember, fieldMatches_iff, foldName_lits]
  generalize foldName kv.1 = x
  split_ifs <;> simp_all

theorem appMember_Version (st : AppConfig × Option UnmarshalTypeError) (kv : String × Json) :
    (appMember st kv).1.Version =
      if fieldMatches kv.1 "version" = true then (storeString kv.2 st.1.Version).1 else st.1.Version := by
  simp only [appMember, fieldMatches_iff, foldName_lits]
  generalize foldName kv.1 = x
  split_ifs <;> simp_all

theorem appMember_Description (st : AppConfig × Option UnmarshalTypeError) (kv : String × Json) :
    (appMember st kv).1.Description =
      if fieldMatches kv.1 "description" = true then (storeString kv.2 st.1.Description).1 else st.1.Description := by
  simp only [appMember, fieldMatches_iff, foldName_lits]
  generalize foldName kv.1 = x
  split_ifs <;> simp_all

theorem appMember_Author (st : AppConfig × Option UnmarshalTypeError) (kv : String × Json) :
    (appMember st kv).1.Author =
      if fieldMatches kv.1 "author" = true then (storeString kv.2 st.1.Author).1 else st.1.Author := by
  simp only [appMember, fieldMatches_iff, foldName_lits]
  generalize foldName kv.1 = x
  split_ifs <;> simp_all

theorem configMember_App (st : Config × Option UnmarshalTypeError) (kv : String × Json) :
    (configMember st kv).1.App =
      if fieldMatches kv.1 "app" = true then (storeStruct appMember kv.2 (st.1.App, st.2)).1
      else st.1.App := by
  simp only [configMember, fieldMatches_iff, foldName_lits]
  generalize foldName kv.1 = x
  split_ifs <;> simp_all

theorem serverMember_indep (a : ServerConfig) (e e2 : Option UnmarshalTypeError) (kv : String × Json) :
    (serverMember (a, e) kv).1 = (serverMember (a, e2) kv).1 := by
  simp only [serverMember]
  split_ifs <;> rfl

theorem serverMember_Host (st : ServerConfig × Option UnmarshalTypeError) (kv : String × Json) :
    (serverMember st kv).1.Host =
      if fieldMatches kv.1 "host" = true then (storeString kv.2 st.1.Host).1 else st.1.Host := by
  simp only [serverMember, fieldMatches_iff, foldName_lits]
  generalize foldName kv.1 = x
  split_ifs <;> simp_all

theorem serverMember_Port (st : ServerConfig × Option UnmarshalTypeError) (kv : String × Json) :
    (serverMember st kv).1.Port =
      if fieldMatches kv.1 "port" = true then (storeInt kv.2 st.1.Port).1 else st.1.Port := by
  simp only [serverMember, fieldMatches_iff, foldName_lits]
  generalize foldName kv.1 = x
  split_ifs <;> simp_all

theorem serverMember_Mode (st : ServerConfig × Option UnmarshalTypeError) (kv : String × Json) :
    (serverMember st kv).1.Mode =
      if fieldMatches kv.1 "mode" = true then (storeString kv.2 st.1.Mode).1 else st.1.Mode := by
  simp only [serverMember, fieldMatches_iff, foldName_lits]
  generalize foldName kv.1 = x
  split_ifs <;> simp_all

theorem serverMember_AllowOrigins (st : ServerConfig × Option UnmarshalTypeError) (kv : String × Json) :
    (serverMember st kv).1.AllowOrigins =
      if fieldMatches kv.1 "allowOrigins" = true then (storeStrings kv.2 st.1.AllowOrigins).1 else st.1.AllowOrigins := by
  simp only [serverMember, fieldMatches_iff, foldName_lits]
  generalize foldName kv.1 = x
  split_ifs <;> simp_all

theorem serverMember_ReadTimeout (st : ServerConfig × Option UnmarshalTypeError) (kv : String × Json) :
    (serverMember st kv).1.ReadTimeout =
      if fieldMatches kv.1 "readTimeout" = true then (storeInt kv.2 st.1.ReadTimeout).1 else st.1.ReadTimeout := by
  simp only [serverMember, fieldMatches_iff, foldName_lits]
  generalize foldName kv.1 = x
  split_ifs <;> simp_all

theorem serverMember_WriteTimeout (st : ServerConfig × Option UnmarshalTypeError) (kv : String × Json) :
    (serverMember st kv).1.WriteTimeout =
      if fieldMatches kv.1 "writeTimeout" = true then (storeInt kv.2 st.1.WriteTimeout).1 else st.1.WriteTimeout := by
  simp only [serverMember, fieldMatches_iff, foldName_lits]
  generalize foldName kv.1 = x
  split_ifs <;> simp_all

theorem configMember_Server (st : Config × Option UnmarshalTypeError) (kv : String × Json) :
    (configMember st kv).1.Server =
      if fieldMatches kv.1 "server" = true then (storeStruct serverMember kv.2 (st.1.Server, st.2)).1
      else st.1.Server := by
  simp only [configMember, fieldMatches_iff, foldName_lits]
  generalize foldName kv.1 = x
  split_ifs <;> simp_all

theorem logMember_indep (a : LogConfig) (e e2 : Option UnmarshalTypeError) (kv : String × Json) :
    (logMember (a, e) kv).1 = (logMember (a, e2) kv).1 := by
  simp only [logMember]
  split_ifs <;> rfl

theorem logMember_Level (st : LogConfig × Option UnmarshalTypeError) (kv : String × Json) :
    (logMember st kv).1.Level =
      if fieldMatches kv.1 "level" = true then (storeString kv.2 st.1.Level).1 else st.1.Level := by
  simp only [logMember, fieldMatches_iff, foldName_lits]
  generalize foldName kv.1 = x
  split_ifs <;> simp_all

theorem logMember_Format (st : LogConfig × Option UnmarshalTypeError) (kv : String × Json) :
    (logMember st kv).1.Format =
      if fieldMatches kv.1 "format" = true then (storeString kv.2 st.1.Format).1 else st.1.Format := by
  simp only [logMember, fieldMatches_iff, foldName_lits]
  generalize foldName kv.1 = x
  split_ifs <;> simp_all

theorem configMember_Log (st : Config × Option UnmarshalTypeError) (kv : String × Json) :
    (configMember st kv).1.Log =
      if fieldMatches kv.1 "log" = true then (storeStruct logMember kv.2 (st.1.Log, st.2)).1
      else st.1.Log := by
  simp only [configMember, fieldMatches_iff, foldName_lits]
  generalize foldName kv.1 = x
  split_ifs <;> simp_all

theorem envOverride_unset (env : Env) (cfg : Config) (hport : env "APP_PORT" = none)
    (hmode : env "APP_MODE" = none) : envOverride env cfg = cfg := by
  simp [envOverride, Getenv, hport, hmode]

theorem loadFile_read (sep : String) (fs : FileSystem) (data : FileData)
    (hfound : getConfigFile sep fs.stat ≠ "")
    (hread : fs.readFile (getConfigFile sep fs.stat) = some data) :
    (loadFile sep fs).1 = (jsonUnmarshal data defaultConfig).1 := by
  simp only [loadFile, hfound, ne_eq, not_false_eq_true, if_true, hread]
  split
  · rename_i h; rw [h]
  · rename_i h; rw [h]

/-- A fold over the members of an object acts on one field through the members that
name it, in order. -/
theorem foldl_members {σ β : Type} (step : σ → String × Json → σ) (π : σ → β)
    (name : String) (upd : β → Json → β)
    (hstep : ∀ st kv, π (step st kv) =
      if fieldMatches kv.1 name = true then upd (π st) kv.2 else π st) :
    ∀ (kvs : List (String × Json)) (st : σ),
      π (kvs.foldl step st) = (membersNamed kvs name).foldl upd (π st)
  | [], _ => rfl
  | kv :: rest, st => by
    simp only [List.foldl_cons, membersNamed]
    rw [foldl_members step π name upd hstep rest (step st kv), hstep]
    by_cases hm : fieldMatches kv.1 name = true
    · simp [hm]
    · simp [hm]

/-- A fold ends without a saved error exactly when it started without one and every
member was stored without one. -/
theorem foldl_err_iff {σ : Type} (step : σ → String × Json → σ)
    (ε : σ → Option UnmarshalTypeError) (ok : String × Json → Bool)
    (hstep : ∀ st kv, ε (step st kv) = none ↔ ε st = none ∧ ok kv = true) :
    ∀ (kvs : List (String × Json)) (st : σ),
      ε (kvs.foldl step st) = none ↔ ε st = none ∧ kvs.all ok = true
  | [], st => by simp
  | kv :: rest, st => by
    simp only [List.foldl_cons, List.all_cons, Bool.and_eq_true]
    rw [foldl_err_iff step ε ok hstep rest (step st kv), hstep]
    tauto

theorem storeStruct_err_iff {α : Type}
    (member : α × Option UnmarshalTypeError → String × Json → α × Option UnmarshalTypeError)
    (okMember : String × Json → Bool)
    (hstep : ∀ st kv, (member st kv).2 = none ↔ st.2 = none ∧ okMember kv = true)
    (v : Json) (st : α × Option UnmarshalTypeError) :
    (storeStruct member v st).2 = none ↔ st.2 = none ∧ okObject okMember v = true := by
  cases v with
  | obj kvs => exact foldl_err_iff member (fun st => st.2) okMember hstep kvs st
  | null => simp [storeStruct, okObject]
  | _ => simp [storeStruct, okObject, saveError_eq_none_iff]

theorem storeString_ok (v : Json) (c : String) :
    (storeString v c).2 = none ↔ okString v = true := by
  cases v <;> simp [storeString, okString]

theorem storeInt_ok (v : Json) (c : Int) : (storeInt v c).2 = none ↔ okInt v = true := by
  cases v with
  | num lit =>
    cases lit with
    | none => simp [storeInt, okInt]
    | some i => by_cases hf : fitsInt i = true <;> simp [storeInt, okInt, hf]
  | _ => simp [storeInt, okInt]

theorem arrayLoop_ok : ∀ (xs : List Json) (i : Nat) (s : StrSlice)
    (e : Option UnmarshalTypeError),
    (arrayLoop xs i s e).2 = none ↔ e = none ∧ xs.all okString = true
  | [], i, s, e => by simp [arrayLoop]
  | x :: xs, i, s, e => by
    simp only [arrayLoop, List.all_cons, Bool.and_eq_true]
    rw [arrayLoop_ok xs, saveError_eq_none_iff, storeString_ok]
    tauto

theorem storeStrings_ok (v : Json) (c : StrSlice) :
    (storeStrings v c).2 = none ↔ okStrings v = true := by
  cases v with
  | arr xs => simp [storeStrings, okStrings, arrayLoop_ok]
  | _ => simp [storeStrings, okStrings]

theorem appMember_ok (st : AppConfig × Option UnmarshalTypeError) (kv : String × Json) :
    (appMember st kv).2 = none ↔ st.2 = none ∧ okAppMember kv = true := by
  simp only [appMember, okAppMember]
  split_ifs <;> simp [saveError_eq_none_iff, storeString_ok]

theorem serverMember_ok (st : ServerConfig × Option UnmarshalTypeError) (kv : String × Json) :
    (serverMember st kv).2 = none ↔ st.2 = none ∧ okServerMember kv = true := by
  simp only [serverMember, okServerMember]
  split_ifs <;> simp [saveError_eq_none_iff, storeString_ok, storeInt_ok, storeStrings_ok]

theorem logMember_ok (st : LogConfig × Option UnmarshalTypeError) (kv : String × Json) :
    (logMember st kv).2 = none ↔ st.2 = none ∧ okLogMember kv = true := by
  simp only [logMember, okLogMember]
  split_ifs <;> simp [saveError_eq_none_iff, storeString_ok]

theorem configMember_ok (st : Config × Option UnmarshalTypeError) (kv : String × Json) :
    (configMember st kv).2 = none ↔ st.2 = none ∧ okConfigMember kv = true := by
  simp only [configMember, okConfigMember]
  split_ifs
  · exact storeStruct_err_iff appMember okAppMember appMember_ok kv.2 (st.1.App, st.2)
  · exact storeStruct_err_iff serverMember okServerMember serverMember_ok kv.2
      (st.1.Server, st.2)
  · exact storeStruct_err_iff logMember okLogMember logMember_ok kv.2 (st.1.Log, st.2)
  · simp

/-- The decoder returns no type error exactly on the files that are well typed. -/
theorem unmarshal_ok_iff (j : Json) (cfg : Config) :
    (jsonUnmarshal (.wellFormed j) cfg).2 = none ↔ wellTyped j = true := by
  simp only [jsonUnmarshal, Option.map_eq_none', wellTyped]
  rw [storeStruct_err_iff configMember okConfigMember configMember_ok j (cfg, none)]
  simp

/-- Decoding a file acts on one setting through the members that name it, inside the
members that name its struct, in the order of the text. -/
theorem config_members {α β : Type} (parent tag : String) (πsec : Config → α)
    (member : α × Option UnmarshalTypeError → String × Json → α × Option UnmarshalTypeError)
    (πleaf : α → β) (upd : β → Json → β)
    (hind : ∀ a e e2 kv, (member (a, e) kv).1 = (member (a, e2) kv).1)
    (hsec : ∀ st kv, πsec (configMember st kv).1 =
      if fieldMatches kv.1 parent = true then (storeStruct member kv.2 (πsec st.1, st.2)).1
      else πsec st.1)
    (hleaf : ∀ st kv, πleaf (member st kv).1 =
      if fieldMatches kv.1 tag = true then upd (πleaf st.1) kv.2 else πleaf st.1)
    (j : Json) (cfg : Config) :
    πleaf (πsec (storeStruct configMember j (cfg, none)).1) =
      (nestedMembers j parent tag).foldl upd (πleaf (πsec cfg)) := by
  have inner : ∀ (vs : List Json) (a : α),
      πleaf (vs.foldl (fun a v => (storeStruct member v (a, none)).1) a) =
        (innerMembers tag vs).foldl upd (πleaf a) := by
    intro vs
    induction vs with
    | nil => intro a; rfl
    | cons v rest ih =>
      intro a
      simp only [List.foldl_cons]
      rw [ih]
      cases v with
      | obj kvs =>
        simp only [innerMembers, List.foldl_append, storeStruct]
        rw [foldl_members member (fun st => πleaf st.1) tag upd hleaf kvs (a, none)]
      | _ => rfl
  cases j with
  | obj kvs =>
    simp only [storeStruct, nestedMembers]
    have S := foldl_members configMember (fun st => πsec st.1) parent
      (fun a v => (storeStruct member v (a, none)).1)
      (by
        intro st kv
        show πsec (configMember st kv).1 = _
        rw [hsec st kv, storeStruct_fst_indep member hind kv.2 (πsec st.1) st.2 none])
      kvs (cfg, none)
    simp only at S
    rw [S]
    exact inner _ _
  | _ => rfl

theorem foldl_last {β : Type} (upd : β → Json → β) (occ : List Json) (d : β) (v : Json)
    (h : occ.getLast? = some v) : ∃ b, occ.foldl upd d = upd b v := by
  obtain ⟨ys, rfl⟩ := List.getLast?_eq_some_iff.mp h
  exact ⟨ys.foldl upd d, by simp [List.foldl_append]⟩

theorem finish_text {x d : String} {occ : List Json}
    (h : x = occ.foldl (fun b v => (storeString v b).1) d) :
    (occ = [] → FieldValue.text x = .text d) ∧
    (∀ v fv, occ.getLast? = some v → Kind.text.accepts v = some fv →
      FieldValue.text x = fv) := by
  constructor
  · rintro rfl
    rw [h]; rfl
  · intro v fv hv hfv
    obtain ⟨b, hb⟩ := foldl_last _ occ d v hv
    rw [h, hb]
    cases v <;> simp_all [Kind.accepts, storeString]

theorem finish_int {x d : Int} {occ : List Json}
    (h : x = occ.foldl (fun b v => (storeInt v b).1) d) :
    (occ = [] → FieldValue.int x = .int d) ∧
    (∀ v fv, occ.getLast? = some v → Kind.int.accepts v = some fv →
      FieldValue.int x = fv) := by
  constructor
  · rintro rfl
    rw [h]; rfl
  · intro v fv hv hfv
    obtain ⟨b, hb⟩ := foldl_last _ occ d v hv
    rw [h, hb]
    cases v with
    | num lit =>
      cases lit with
      | none => simp [Kind.accepts] at hfv
      | some i =>
        by_cases hf : fitsInt i = true
        · simpa [Kind.accepts, storeInt, hf] using hfv
        · simp [Kind.accepts, hf] at hfv
    | _ => simp [Kind.accepts] at hfv

theorem arrayLoop_inv : ∀ (xs : List Json) (i : Nat) (s : StrSlice)
    (e : Option UnmarshalTypeError), i ≤ s.len → s.len ≤ s.mem.length →
    (arrayLoop xs i s e).1.len ≤ (arrayLoop xs i s e).1.mem.length
  | [], i, s, e, hi, hlen => by
    simp only [arrayLoop, arrayFinish]
    by_cases h0 : i = 0
    · simp [h0]
    · simp only [h0, if_false]
      split
      · simp only []; omega
      · exact hlen
  | x :: xs, i, s, e, hi, hlen => by
    obtain ⟨h1, h2, h3, -⟩ := growTo_spec i s hi hlen
    simp only [arrayLoop]
    exact arrayLoop_inv xs (i + 1) ⟨(growTo i s).mem.set i _, (growTo i s).len⟩ _ h2
      (by simpa using h3)

theorem storeStrings_inv (v : Json) (c : StrSlice) (h : c.len ≤ c.mem.length) :
    (storeStrings v c).1.len ≤ (storeStrings v c).1.mem.length := by
  cases v with
  | arr xs => exact arrayLoop_inv xs 0 c none (Nat.zero_le _) h
  | null => simp [storeStrings]
  | _ => exact h

theorem foldl_storeStrings_inv : ∀ (occ : List Json) (d : StrSlice), d.len ≤ d.mem.length →
    (occ.foldl (fun b v => (storeStrings v b).1) d).len ≤
      (occ.foldl (fun b v => (storeStrings v b).1) d).mem.length
  | [], _, h => h
  | v :: rest, d, h => by
    simp only [List.foldl_cons]
    exact foldl_storeStrings_inv rest _ (storeStrings_inv v d h)

theorem finish_texts {x d : StrSlice} {occ : List Json} (hd : d.len ≤ d.mem.length)
    (h : x = occ.foldl (fun b v => (storeStrings v b).1) d) :
    (occ = [] → FieldValue.texts x.toList = .texts d.toList) ∧
    (∀ v fv, occ.getLast? = some v → Kind.texts.accepts v = some fv →
      FieldValue.texts x.toList = fv) := by
  constructor
  · rintro rfl
    rw [h]; rfl
  · intro v fv hv hfv
    obtain ⟨ys, rfl⟩ := List.getLast?_eq_some_iff.mp hv
    have hinv := foldl_storeStrings_inv ys d hd
    rw [h, List.foldl_append]
    cases v with
    | arr xs =>
      simp only [Kind.accepts, Option.map_eq_some'] at hfv
      obtain ⟨l, hl, rfl⟩ := hfv
      have := arrayLoop_strings xs l 0 _ none hl (Nat.zero_le _) hinv
      simp only [List.take_zero, List.nil_append] at this
      exact congrArg FieldValue.texts this
    | _ => simp [Kind.accepts] at hfv


/-- A decoded file leaves every setting it does not name as it was in the defaults, and
gives every setting whose last naming member is a value of the setting's type that
value. -/
theorem unmarshal_field (j : Json) (f : Field) :
    (fileMembers j f = [] →
      (storeStruct configMember j (defaultConfig, none)).1.get f = defaultConfig.get f) ∧
    (∀ v fv, (fileMembers j f).getLast? = some v → f.accepts v = some fv →
      (storeStruct configMember j (defaultConfig, none)).1.get f = fv) := by
  cases f with
  | appName =>
    exact finish_text (config_members "app" "name" Config.App appMember AppConfig.Name
      (fun b w => (storeString w b).1) appMember_indep configMember_App appMember_Name
      j defaultConfig)
  | appVersion =>
    exact finish_text (config_members "app" "version" Config.App appMember AppConfig.Version
      (fun b w => (storeString w b).1) appMember_indep configMember_App appMember_Version
      j defaultConfig)
  | appDescription =>
    exact finish_text (config_members "app" "description" Config.App appMember AppConfig.Description
      (fun b w => (storeString w b).1) appMember_indep configMember_App appMember_Description
      j defaultConfig)
  | appAuthor =>
    exact finish_text (config_members "app" "author" Config.App appMember AppConfig.Author
      (fun b w => (storeString w b).1) appMember_indep configMember_App appMember_Author
      j defaultConfig)
  | serverHost =>
    exact finish_text (config_members "server" "host" Config.Server serverMember ServerConfig.Host
      (fun b w => (storeString w b).1) serverMember_indep configMember_Server serverMember_Host
      j defaultConfig)
  | serverPort =>
    exact finish_int (config_members "server" "port" Config.Server serverMember ServerConfig.Port
      (fun b w => (storeInt w b).1) serverMember_indep configMember_Server serverMember_Port
      j defaultConfig)
  | serverMode =>
    exact finish_text (config_members "server" "mode" Config.Server serverMember ServerConfig.Mode
      (fun b w => (storeString w b).1) serverMember_indep configMember_Server serverMember_Mode
      j defaultConfig)
  | serverAllowOrigins =>
    exact finish_texts (by decide) (config_members "server" "allowOrigins" Config.Server serverMember ServerConfig.AllowOrigins
      (fun b w => (storeStrings w b).1) serverMember_indep configMember_Server serverMember_AllowOrigins
      j defaultConfig)
  | serverReadTimeout =>
    exact finish_int (config_members "server" "readTimeout" Config.Server serverMember ServerConfig.ReadTimeout
      (fun b w => (storeInt w b).1) serverMember_indep configMember_Server serverMember_ReadTimeout
      j defaultConfig)
  | serverWriteTimeout =>
    exact finish_int (config_members "server" "writeTimeout" Config.Server serverMember ServerConfig.WriteTimeout
      (fun b w => (storeInt w b).1) serverMember_indep configMember_Server serverMember_WriteTimeout
      j defaultConfig)
  | logLevel =>
    exact finish_text (config_members "log" "level" Config.Log logMember LogConfig.Level
      (fun b w => (storeString w b).1) logMember_indep configMember_Log logMember_Level
      j defaultConfig)
  | logFormat =>
    exact finish_text (config_members "log" "format" Config.Log logMember LogConfig.Format
      (fun b w => (storeString w b).1) logMember_indep configMember_Log logMember_Format
      j defaultConfig)

/-- C4, amended: with `APP_PORT` and `APP_MODE` unset, `Load` returns exactly the defaults
when no configuration file is found.  A file parses without error exactly when it is well
typed (every member naming a struct is `null` or an object, every member naming a setting
is `null` or of the setting's type); for such a file every setting that no member names
holds its built-in default, and every setting whose last naming member is a string, an
integer that fits `int`, or an array of strings, as the setting's type requires, holds
that value. -/
theorem Load_file_merge (sep : String) (fs : FileSystem) (env : Env)
    (hport : env "APP_PORT" = none) (hmode : env "APP_MODE" = none) :
    (getConfigFile sep fs.stat = "" → Load sep fs env = defaultConfig) ∧
    (∀ j, getConfigFile sep fs.stat ≠ "" →
      fs.readFile (getConfigFile sep fs.stat) = some (.wellFormed j) →
      ((jsonUnmarshal (.wellFormed j) defaultConfig).2 = none ↔ wellTyped j = true) ∧
      (wellTyped j = true → ∀ f,
        (fileMembers j f = [] → (Load sep fs env).get f = defaultConfig.get f) ∧
        (∀ v fv, (fileMembers j f).getLast? = some v → f.accepts v = some fv →
          (Load sep fs env).get f = fv))) ∧
    defaultConfig.App.Name = "App Server" ∧ defaultConfig.App.Version = "1.0.0" ∧
    defaultConfig.Server.Host = "127.0.0.1" ∧ defaultConfig.Server.Port = 1313 ∧
    defaultConfig.Server.Mode = "debug" ∧ defaultConfig.Server.AllowOrigins.toList = ["*"] ∧
    defaultConfig.Server.ReadTimeout = 30 ∧ defaultConfig.Server.WriteTimeout = 30 ∧
    defaultConfig.Log.Level = "info" ∧ defaultConfig.Log.Format = "text" := by
  refine ⟨?_, ?_, by decide⟩
  · intro h
    unfold Load LoadTraced
    rw [loadFile_noFile sep fs h]
    exact envOverride_unset env _ hport hmode
  · intro j hfound hread
    refine ⟨unmarshal_ok_iff j defaultConfig, ?_⟩
    intro _ f
    have hL : Load sep fs env = (storeStruct configMember j (defaultConfig, none)).1 := by
      unfold Load LoadTraced
      simp only []
      rw [envOverride_unset env _ hport hmode, loadFile_read sep fs _ hfound hread]
      rfl
    rw [hL]
    exact unmarshal_field j f

/-- Witness of C4: a configuration file that sets only `server.port`, to 9000. -/
theorem Load_file_merge_witness :
    (Load "/" (onlyConfigJson (.wellFormed port9000)) emptyEnv).get .serverPort = .int 9000 ∧
    (Load "/" (onlyConfigJson (.wellFormed port9000)) emptyEnv).get .serverHost =
      defaultConfig.get .serverHost :=
  ⟨(((Load_file_merge "/" (onlyConfigJson (.wellFormed port9000)) emptyEnv rfl rfl).2.1
      port9000 (by decide) rfl).2 (by decide) .serverPort).2
      (.num (some 9000)) (.int 9000) rfl rfl,
   (((Load_file_merge "/" (onlyConfigJson (.wellFormed port9000)) emptyEnv rfl rfl).2.1
      port9000 (by decide) rfl).2 (by decide) .serverHost).1 rfl⟩

/-- C4 as stated fails: the file `{"server":{"allowOrigins":[null,"b"]}}` parses without
error and sets `allowOrigins`, and `Load` returns `["*", "b"]`, which is neither what the
file says nor the default: `null` leaves the element of the default in place. -/
theorem Load_null_element_keeps_default :
    (jsonUnmarshal (.wellFormed nullOriginFile) defaultConfig).2 = none ∧
    (Load "/" (onlyConfigJson (.wellFormed nullOriginFile)) emptyEnv).get
      .serverAllowOrigins = .texts ["*", "b"] ∧
    defaultConfig.get .serverAllowOrigins = .texts ["*"] := by
  decide


/-! ## Properties of the handlers -/

theorem key_order :
    keyLess "service" "version" = true ∧
    keyLess "timestamp" "version" = true ∧
    keyLess "status" "timestamp" = true ∧
    keyLess "server" "timestamp" = true ∧
    keyLess "app" "server" = true ∧
    keyLess "name" "version" = true ∧
    keyLess "host" "mode" = true ∧
    keyLess "message" "time" = true ∧
    keyLess "echo" "timestamp" = true ∧
    keyLess "timestamp" "service" = false ∧
    keyLess "status" "service" = false ∧
    keyLess "description" "author" = false ∧
    keyLess "version" "author" = false ∧
    keyLess "version" "description" = false ∧
    keyLess "name" "author" = false ∧
    keyLess "name" "description" = false ∧
    keyLess "port" "mode" = false := by
  decide

theorem marshalH_hello (x y : Json) :
    marshalH [("message", x), ("time", y)] = .obj [("message", x), ("time", y)] := by
  simp only [marshalH, sortMembers, insertMember, key_order, if_true, if_false,
    Bool.false_eq_true]

theorem marshalH_echo (x y : Json) :
    marshalH [("echo", x), ("timestamp", y)] = .obj [("echo", x), ("timestamp", y)] := by
  simp only [marshalH, sortMembers, insertMember, key_order, if_true, if_false,
    Bool.false_eq_true]

theorem marshalH_error (x : Json) : marshalH [("error", x)] = .obj [("error", x)] := rfl

theorem marshalH_health (a b c d : Json) :
    marshalH [("status", a), ("timestamp", b), ("service", c), ("version", d)] =
      .obj [("service", c), ("status", a), ("timestamp", b), ("version", d)] := by
  simp only [marshalH, sortMembers, insertMember, key_order, if_true, if_false,
    Bool.false_eq_true]

theorem marshalH_info (a b c d e f g h : Json) :
    marshalH [("app", marshalH [("name", a), ("version", b), ("description", c),
        ("author", d)]),
      ("server", marshalH [("host", e), ("port", f), ("mode", g)]), ("timestamp", h)] =
      .obj [("app", .obj [("author", d), ("description", c), ("name", a), ("version", b)]),
        ("server", .obj [("host", e), ("mode", g), ("port", f)]), ("timestamp", h)] := by
  simp only [marshalH, sortMembers, insertMember, key_order, if_true, if_false,
    Bool.false_eq_true]

theorem reset_JSON (req : HttpRequest) (code : Nat) (obj : Json) (hpos : 0 < code)
    (hbody : bodyAllowedForStatus code = true) :
    ((Context.reset req).JSON code obj).response = some (code, [.json obj]) := by
  by_cases hc : code = 200
  · subst hc
    rfl
  · have h2 : ¬ (200 = code) := fun h => hc h.symm
    simp [Context.JSON, Context.Render, Context.Status, Context.reset, Context.response,
      ResponseWriter.reset, ResponseWriter.WriteHeader, ResponseWriter.Written,
      ResponseWriter.Write, ResponseWriter.WriteHeaderNow, hbody, hpos, h2]

theorem GetQuery_none (c : Context) (key : String)
    (h : ∀ kv ∈ c.Request.query, kv.1 ≠ key) : c.GetQuery key = none := by
  simp only [Context.GetQuery, Option.map_eq_none', List.find?_eq_none]
  intro kv hkv
  simpa using h kv hkv

theorem GetQuery_first (c : Context) (key value : String) (before after : List (String × String))
    (hq : c.Request.query = before ++ (key, value) :: after)
    (h : ∀ kv ∈ before, kv.1 ≠ key) : c.GetQuery key = some value := by
  have hb : before.find? (fun kv => kv.1 == key) = none := by
    rw [List.find?_eq_none]
    intro kv hkv
    simpa using h kv hkv
  simp [Context.GetQuery, hq, List.find?_append, hb]

/-- C5: every `GET /api/v1/hello` is answered by `sayHello` with status 200 and the
message `Hello, World!` when the query has no `name`, and `Hello, v!` when `v` is the
value the query gives for `name`. -/
theorem sayHello_greets (cfg : Config) (errorText : BindError → String) (now : Clock)
    (req : HttpRequest) (hm : req.method = "GET") (hp : req.path = "/api/v1/hello") :
    ∃ c, serve cfg errorText now req = some c ∧
      ((∀ kv ∈ req.query, kv.1 ≠ "name") →
        c.response = some (200, [.json (.obj [("message", .str "Hello, World!"),
          ("time", .str now.text)])])) ∧
      (∀ before value after, req.query = before ++ ("name", value) :: after →
        (∀ kv ∈ before, kv.1 ≠ "name") →
        c.response = some (200, [.json (.obj [("message", .str ("Hello, " ++ value ++ "!")),
          ("time", .str now.text)])])) := by
  have hr : findRoute req.method req.path = some .sayHello := by
    rw [hm, hp]; decide
  refine ⟨sayHello now (Context.reset req), by simp [serve, hr, Handler.run], ?_, ?_⟩
  · intro h
    have hq := GetQuery_none (Context.reset req) "name" h
    simp only [sayHello, Context.DefaultQuery, hq, marshalH_hello]
    exact reset_JSON req 200 _ (by decide) (by decide)
  · intro before value after hq h
    have hq := GetQuery_first (Context.reset req) "name" value before after hq h
    simp only [sayHello, Context.DefaultQuery, hq, marshalH_hello]
    exact reset_JSON req 200 _ (by decide) (by decide)

/-- Witness of C5: `GET /api/v1/hello?name=Alice`. -/
theorem sayHello_greets_witness :
    ∃ c, serve defaultConfig (fun _ => "") ⟨0, ""⟩
        ⟨"GET", "/api/v1/hello", [("name", "Alice")], .empty⟩ = some c ∧
      c.response = some (200, [.json (.obj [("message", .str ("Hello, " ++ "Alice" ++ "!")),
        ("time", .str "")])]) := by
  obtain ⟨c, h1, _, h3⟩ := sayHello_greets defaultConfig (fun _ => "") ⟨0, ""⟩
    ⟨"GET", "/api/v1/hello", [("name", "Alice")], .empty⟩ rfl rfl
  exact ⟨c, h1, h3 [] "Alice" [] rfl (by simp)⟩

theorem echoMember_Message (st : EchoRequest × Option UnmarshalTypeError)
    (kv : String × Json) :
    (echoMember st kv).1.Message =
      if fieldMatches kv.1 "message" = true then (storeString kv.2 st.1.Message).1
      else st.1.Message := by
  simp only [echoMember]
  split_ifs <;> rfl

theorem echoMember_ok (st : EchoRequest × Option UnmarshalTypeError) (kv : String × Json) :
    (echoMember st kv).2 = none ↔
      st.2 = none ∧ (!fieldMatches kv.1 "message" || okString kv.2) = true := by
  simp only [echoMember]
  split_ifs with h <;> simp [saveError_eq_none_iff, storeString_ok, h]

theorem all_membersNamed (name : String) (p : Json → Bool) :
    ∀ kvs : List (String × Json),
      kvs.all (fun kv => !fieldMatches kv.1 name || p kv.2) = (membersNamed kvs name).all p
  | [] => rfl
  | kv :: rest => by
    simp only [List.all_cons, membersNamed, all_membersNamed name p rest]
    by_cases hm : fieldMatches kv.1 name = true <;> simp [hm]

theorem membersNamed_of_lookup_none (name : String) :
    ∀ kvs : List (String × Json), lookupField kvs name = none → membersNamed kvs name = []
  | [], _ => rfl
  | kv :: rest, h => by
    unfold lookupField at h
    by_cases hm : fieldMatches kv.1 name = true
    · simp [hm] at h
    · simp only [hm, if_false, Bool.false_eq_true] at h
      simp only [membersNamed, hm, if_false, Bool.false_eq_true]
      exact membersNamed_of_lookup_none name rest h

theorem foldl_storeString_last : ∀ (occ : List Json) (b : String),
    occ.all okString = true →
    occ.foldl (fun b v => (storeString v b).1) b = ((stringsAmong occ).getLast?).getD b
  | [], _, _ => rfl
  | v :: rest, b, h => by
    simp only [List.all_cons, Bool.and_eq_true] at h
    cases v with
    | str s =>
      simp only [List.foldl_cons, storeString, stringsAmong, List.getLast?_cons,
        Option.getD_some]
      exact foldl_storeString_last rest s h.2
    | null =>
      simp only [List.foldl_cons, storeString, stringsAmong]
      exact foldl_storeString_last rest b h.2
    | _ => simp [okString] at h

/-- What `ShouldBindJSON` makes of a JSON object whose members naming `message` are all
strings or `null`: the last of the strings, rejected when there is none or it is empty. -/
theorem ShouldBindJSON_typed (req : HttpRequest) (kvs : List (String × Json))
    (hb : req.body = .value (.obj kvs))
    (hok : (membersNamed kvs "message").all okString = true) :
    ShouldBindJSON (Context.reset req) ⟨""⟩ =
      if ((stringsAmong (membersNamed kvs "message")).getLast?).getD "" = "" then
        (⟨((stringsAmong (membersNamed kvs "message")).getLast?).getD ""⟩, some .required)
      else (⟨((stringsAmong (membersNamed kvs "message")).getLast?).getD ""⟩, none) := by
  have hv := foldl_members echoMember (fun st => st.1.Message) "message"
    (fun b v => (storeString v b).1) echoMember_Message kvs (⟨""⟩, none)
  have he := (foldl_err_iff echoMember (fun st => st.2)
    (fun kv => !fieldMatches kv.1 "message" || okString kv.2) echoMember_ok kvs
    (⟨""⟩, none)).mpr ⟨rfl, by rw [all_membersNamed]; exact hok⟩
  simp only at hv he
  rw [foldl_storeString_last _ _ hok] at hv
  simp only [ShouldBindJSON, Context.reset, hb, storeStruct]
  rcases hst : kvs.foldl echoMember (⟨""⟩, none) with ⟨⟨msg⟩, e⟩
  rw [hst] at hv he
  simp only at hv he
  subst hv he
  rfl

/-- What `ShouldBindJSON` makes of a JSON object with a member naming `message` that is
neither a string nor `null`: a type error. -/
theorem ShouldBindJSON_mistyped (req : HttpRequest) (kvs : List (String × Json))
    (hb : req.body = .value (.obj kvs))
    (hbad : (membersNamed kvs "message").all okString = false) :
    ∃ r e, ShouldBindJSON (Context.reset req) ⟨""⟩ = (r, some (.type e)) := by
  have he := (foldl_err_iff echoMember (fun st => st.2)
    (fun kv => !fieldMatches kv.1 "message" || okString kv.2) echoMember_ok kvs
    (⟨""⟩, none))
  rw [all_membersNamed, hbad] at he
  simp only [ShouldBindJSON, Context.reset, hb, storeStruct]
  rcases hst : kvs.foldl echoMember (⟨""⟩, none) with ⟨r, e⟩
  rw [hst] at he
  cases e with
  | none => simp at he
  | some e => exact ⟨r, e, rfl⟩

theorem echo_accept (errorText : BindError → String) (now : Clock) (req : HttpRequest)
    (r : EchoRequest) (h : ShouldBindJSON (Context.reset req) ⟨""⟩ = (r, none)) :
    (echoMessage errorText now (Context.reset req)).response =
      some (200, [.json (.obj [("echo", .str r.Message),
        ("timestamp", .num (some now.unix))])]) := by
  simp only [echoMessage, h, marshalH_echo]
  exact reset_JSON req 200 _ (by decide) (by decide)

theorem echo_reject (errorText : BindError → String) (now : Clock) (req : HttpRequest)
    (r : EchoRequest) (err : BindError)
    (h : ShouldBindJSON (Context.reset req) ⟨""⟩ = (r, some err)) :
    (echoMessage errorText now (Context.reset req)).response =
      some (400, [.json (.obj [("error", .str ("请求参数错误: " ++ errorText err))])]) := by
  simp only [echoMessage, h, marshalH_error]
  exact reset_JSON req 400 _ (by decide) (by decide)

/-- C6, amended: a `POST /api/v1/echo` whose body is a JSON object in which every member
naming `message` is a string or `null`, and the last string among them is a non-empty
`m`, is answered with status 200 and `echo = m`; every other request, among them one
with no body, with an object that has no member `message`, with the empty string as the
last string `message`, or with a member naming `message` that is neither a string nor
`null`, is answered with status 400 and an `error` member that carries the text of the
binding error. -/
theorem echoMessage_contract (cfg : Config) (errorText : BindError → String) (now : Clock)
    (req : HttpRequest) (hm : req.method = "POST") (hp : req.path = "/api/v1/echo") :
    ∃ c, serve cfg errorText now req = some c ∧
      (∀ kvs m, req.body = .value (.obj kvs) →
        (membersNamed kvs "message").all okString = true →
        (stringsAmong (membersNamed kvs "message")).getLast? = some m → m ≠ "" →
        c.response = some (200, [.json (.obj [("echo", .str m),
          ("timestamp", .num (some now.unix))])])) ∧
      ((req.body = .empty ∨
          ∃ kvs, req.body = .value (.obj kvs) ∧ lookupField kvs "message" = none) →
        c.sentStatus = 400 ∧ c.sentStatus ≠ 200 ∧
        ∃ err, c.response = some (400, [.json (.obj [("error",
          .str ("请求参数错误: " ++ errorText err))])])) ∧
      (∀ kvs, req.body = .value (.obj kvs) →
        (membersNamed kvs "message").all okString = true →
        (stringsAmong (membersNamed kvs "message")).getLast? = some "" →
        c.response = some (400, [.json (.obj [("error",
          .str ("请求参数错误: " ++ errorText .required))])])) ∧
      (∀ kvs v, req.body = .value (.obj kvs) → v ∈ membersNamed kvs "message" →
        okString v = false →
        ∃ e, c.response = some (400, [.json (.obj [("error",
          .str ("请求参数错误: " ++ errorText (.type e)))])])) ∧
      ((¬ ∃ kvs m, req.body = .value (.obj kvs) ∧
          (membersNamed kvs "message").all okString = true ∧
          (stringsAmong (membersNamed kvs "message")).getLast? = some m ∧ m ≠ "") →
        c.sentStatus = 400 ∧
        ∃ err, c.response = some (400, [.json (.obj [("error",
          .str ("请求参数错误: " ++ errorText err))])])) := by
  have hr : findRoute req.method req.path = some .echoMessage := by
    rw [hm, hp]; decide
  refine ⟨echoMessage errorText now (Context.reset req), by simp [serve, hr, Handler.run],
    ?_, ?_, ?_, ?_, ?_⟩
  rotate_left 4
  · intro hno
    have hbind : ∃ r err, ShouldBindJSON (Context.reset req) ⟨""⟩ = (r, some err) := by
      cases hb : req.body with
      | empty => exact ⟨⟨""⟩, .eof, by simp [ShouldBindJSON, Context.reset, hb]⟩
      | malformed => exact ⟨⟨""⟩, .syntaxError, by simp [ShouldBindJSON, Context.reset, hb]⟩
      | value j =>
        cases j with
        | obj kvs =>
          cases hok : (membersNamed kvs "message").all okString with
          | false =>
            obtain ⟨r, e, h⟩ := ShouldBindJSON_mistyped req kvs hb hok
            exact ⟨r, _, h⟩
          | true =>
            have hbind := ShouldBindJSON_typed req kvs hb hok
            by_cases hempty :
                ((stringsAmong (membersNamed kvs "message")).getLast?).getD "" = ""
            · rw [if_pos hempty] at hbind
              exact ⟨_, _, hbind⟩
            · exfalso
              apply hno
              cases hl : (stringsAmong (membersNamed kvs "message")).getLast? with
              | none => simp [hl] at hempty
              | some m =>
                refine ⟨kvs, m, hb, hok, hl, ?_⟩
                simpa [hl] using hempty
        | null =>
          exact ⟨⟨""⟩, .required, by simp [ShouldBindJSON, Context.reset, hb, storeStruct]⟩
        | bool b =>
          exact ⟨⟨""⟩, .type ⟨"bool"⟩,
            by simp [ShouldBindJSON, Context.reset, hb, storeStruct, saveError]⟩
        | num n =>
          exact ⟨⟨""⟩, .type ⟨"number"⟩,
            by simp [ShouldBindJSON, Context.reset, hb, storeStruct, saveError]⟩
        | str x =>
          exact ⟨⟨""⟩, .type ⟨"string"⟩,
            by simp [ShouldBindJSON, Context.reset, hb, storeStruct, saveError]⟩
        | arr x =>
          exact ⟨⟨""⟩, .type ⟨"array"⟩,
            by simp [ShouldBindJSON, Context.reset, hb, storeStruct, saveError]⟩
    obtain ⟨r, err, hbind⟩ := hbind
    have hresp := echo_reject errorText now req r err hbind
    exact ⟨by simp [Context.sentStatus, hresp], err, hresp⟩
  · intro kvs m hb hok hl hne
    have hbind := ShouldBindJSON_typed req kvs hb hok
    rw [hl] at hbind
    simp only [Option.getD_some, hne, if_false] at hbind
    exact echo_accept errorText now req _ hbind
  · intro h
    have hbind : ∃ r err, ShouldBindJSON (Context.reset req) ⟨""⟩ = (r, some err) := by
      rcases h with h | ⟨kvs, hb, hl⟩
      · exact ⟨⟨""⟩, .eof, by simp [ShouldBindJSON, Context.reset, h]⟩
      · have hmem := membersNamed_of_lookup_none "message" kvs hl
        have hbind := ShouldBindJSON_typed req kvs hb (by rw [hmem]; rfl)
        rw [hmem] at hbind
        exact ⟨_, .required, hbind⟩
    obtain ⟨r, err, hbind⟩ := hbind
    have hresp := echo_reject errorText now req r err hbind
    refine ⟨?_, ?_, err, hresp⟩
    · simp [Context.sentStatus, hresp]
    · simp [Context.sentStatus, hresp]
  · intro kvs hb hok hl
    have hbind := ShouldBindJSON_typed req kvs hb hok
    rw [hl] at hbind
    simp only [Option.getD_some, if_true] at hbind
    exact echo_reject errorText now req _ _ hbind
  · intro kvs v hb hv hbad
    have hall : (membersNamed kvs "message").all okString = false := by
      rw [List.all_eq_false]
      exact ⟨v, hv, by simp [hbad]⟩
    obtain ⟨r, e, hbind⟩ := ShouldBindJSON_mistyped req kvs hb hall
    exact ⟨e, echo_reject errorText now req r _ hbind⟩

/-- Witness of C6: the body `{"message":"hi"}`. -/
theorem echoMessage_contract_witness :
    ∃ c, serve defaultConfig (fun _ => "") ⟨7, ""⟩
        (echoRequest (.obj [("message", .str "hi")])) = some c ∧
      c.response = some (200, [.json (.obj [("echo", .str "hi"),
        ("timestamp", .num (some 7))])]) := by
  obtain ⟨c, h1, h2, _, _, _, _⟩ := echoMessage_contract defaultConfig (fun _ => "") ⟨7, ""⟩
    (echoRequest (.obj [("message", .str "hi")])) rfl rfl
  exact ⟨c, h1, h2 _ "hi" rfl (by decide) (by decide) (by decide)⟩

/-- C6 as stated fails: the body `{"message":""}` is a JSON object with the string member
`message`, and the answer is status 400 with an `error` member, not 200; so is the answer
to `{"message":"hi","MESSAGE":5}`, whose second member names the same field. -/
theorem echoMessage_empty_message_rejected :
    lookupField [("message", Json.str "")] "message" = some (.str "") ∧
    (serve defaultConfig (fun _ => "") ⟨7, ""⟩
      (echoRequest (.obj [("message", .str "")]))).map Context.sentStatus = some 400 ∧
    (serve defaultConfig (fun _ => "") ⟨7, ""⟩
      (echoRequest (.obj [("message", .str "")]))).map Context.sentKeys = some ["error"] ∧
    (serve defaultConfig (fun _ => "") ⟨7, ""⟩
      (echoRequest (.obj [("message", .str "hi"), ("MESSAGE", .num (some 5))]))).map
        Context.sentStatus = some 400 := by
  refine ⟨rfl, ?_, ?_, ?_⟩ <;> decide

/-- C7, amended: when nothing of the response has been written, the handler of `Recovery` leaves
the request with status 500, sent to the client, and the chain aborted, whatever value
was recovered; for a recovered string `s` the body is the text `内部服务器错误: ` followed
by `s`, and for any other value the body is empty. -/
theorem recoveryHandle_500 (c : Context) (recovered : Recovered)
    (h : c.Writer.Written = false) :
    (recoveryHandle c recovered).Writer.status = 500 ∧
    (recoveryHandle c recovered).sentStatus = 500 ∧
    (recoveryHandle c recovered).IsAborted = true ∧
    (∀ s, recovered = .str s →
      (recoveryHandle c recovered).response = some (500, [.text ("内部服务器错误: " ++ s)])) ∧
    (∀ d, recovered = .other d → (recoveryHandle c recovered).response = some (500, [])) := by
  have hw : c.Writer.wire = none := by
    simpa [ResponseWriter.Written] using h
  cases recovered with
  | str s =>
    by_cases hs : c.Writer.status = 500 <;>
      simp [recoveryHandle, Context.String, Context.Render, Context.Status,
        Context.AbortWithStatus, Context.Abort, Context.IsAborted, Context.response,
        Context.sentStatus, ResponseWriter.WriteHeader, ResponseWriter.Written,
        ResponseWriter.Write, ResponseWriter.WriteHeaderNow, bodyAllowedForStatus, hw, hs,
        abortIndex]
  | other d =>
    by_cases hs : c.Writer.status = 500 <;>
      simp [recoveryHandle, Context.Status,
        Context.AbortWithStatus, Context.Abort, Context.IsAborted, Context.response,
        Context.sentStatus, ResponseWriter.WriteHeader, ResponseWriter.Written,
        ResponseWriter.WriteHeaderNow, hw, hs, abortIndex]

/-- Witness of C7: the string `boom` recovered on a context that has written nothing. -/
theorem recoveryHandle_500_witness :
    (recoveryHandle (Context.reset ⟨"GET", "/health", [], .empty⟩) (.str "boom")).sentStatus
      = 500 :=
  (recoveryHandle_500 (Context.reset ⟨"GET", "/health", [], .empty⟩) (.str "boom") rfl).2.1

/-- C7 as stated fails: on the context of a request that `healthCheck` has already
answered with status 200, the handler of `Recovery` called with the recovered string
`boom` aborts the chain but leaves the status at 200, held and sent, and adds its text
after the body already written. -/
theorem recoveryHandle_after_write :
    answeredContext.sentStatus = 200 ∧
    (recoveryHandle answeredContext (.str "boom")).sentStatus = 200 ∧
    (recoveryHandle answeredContext (.str "boom")).Writer.status = 200 ∧
    (recoveryHandle answeredContext (.str "boom")).IsAborted = true ∧
    (recoveryHandle answeredContext (.str "boom")).response.map (fun r => r.2.length) =
      some 2 := by
  decide

theorem sentKeys_of_response (c : Context) (status : Nat) (j : Json)
    (h : c.response = some (status, [.json j])) : c.sentKeys = j.keys := by
  simp [Context.sentKeys, h]

theorem envelope_keys :
    fieldMatches "success" "success" = true ∧ fieldMatches "success" "timestamp" = false ∧
    fieldMatches "message" "timestamp" = false ∧ fieldMatches "data" "timestamp" = false ∧
    fieldMatches "error" "timestamp" = false ∧ fieldMatches "timestamp" "timestamp" = true ∧
    fieldMatches "success" "data" = false ∧ fieldMatches "message" "data" = false ∧
    fieldMatches "data" "data" = true ∧ fieldMatches "success" "error" = false ∧
    fieldMatches "message" "error" = false ∧ fieldMatches "data" "error" = false ∧
    fieldMatches "error" "error" = true := by
  decide

/-- The object written for an `APIResponse` carries the boolean `success`, the integer
`timestamp`, the payload under `data` and a non-empty failure text under `error`. -/
theorem marshal_envelope (r : APIResponse) :
    ∃ kvs, r.marshal = .obj kvs ∧
      lookupField kvs "success" = some (.bool r.Success) ∧
      lookupField kvs "timestamp" = some (.num (some r.Timestamp)) ∧
      (∀ d, r.Data = some d → lookupField kvs "data" = some d) ∧
      (r.Error ≠ "" → lookupField kvs "error" = some (.str r.Error)) := by
  obtain ⟨k1, k2, k3, k4, k5, k6, k7, k8, k9, k10, k11, k12, k13⟩ := envelope_keys
  refine ⟨_, rfl, ?_, ?_, ?_, ?_⟩
  · simp [lookupField, k1]
  · cases hd : r.Data <;> by_cases hm : r.Message = "" <;> by_cases he : r.Error = "" <;>
      simp [lookupField, hm, he, k2, k3, k4, k5, k6]
  · intro d hd
    by_cases hm : r.Message = "" <;> simp [lookupField, hd, hm, k7, k8, k9]
  · intro he
    cases hd : r.Data <;> by_cases hm : r.Message = "" <;>
      simp [lookupField, hm, he, k10, k11, k12, k13]

theorem healthCheck_response (cfg : Config) (now : Clock) (req : HttpRequest) :
    (healthCheck cfg now (Context.reset req)).response =
      some (200, [.json (.obj [("service", .str cfg.App.Name), ("status", .str "ok"),
        ("timestamp", .num (some now.unix)), ("version", .str cfg.App.Version)])]) := by
  simp only [healthCheck, marshalH_health]
  exact reset_JSON req 200 _ (by decide) (by decide)

theorem getSystemInfo_response (cfg : Config) (now : Clock) (req : HttpRequest) :
    (getSystemInfo cfg now (Context.reset req)).response =
      some (200, [.json (.obj [
        ("app", .obj [("author", .str cfg.App.Author),
          ("description", .str cfg.App.Description), ("name", .str cfg.App.Name),
          ("version", .str cfg.App.Version)]),
        ("server", .obj [("host", .str cfg.Server.Host), ("mode", .str cfg.Server.Mode),
          ("port", .num (some cfg.Server.Port))]),
        ("timestamp", .num (some now.unix))])]) := by
  simp only [getSystemInfo, marshalH_info]
  exact reset_JSON req 200 _ (by decide) (by decide)

theorem sayHello_response (now : Clock) (req : HttpRequest) :
    (sayHello now (Context.reset req)).response =
      some (200, [.json (.obj [
        ("message", .str ("Hello, " ++ (Context.reset req).DefaultQuery "name" "World" ++ "!")),
        ("time", .str now.text)])]) := by
  simp only [sayHello, marshalH_hello]
  exact reset_JSON req 200 _ (by decide) (by decide)

theorem echoMessage_response (errorText : BindError → String) (now : Clock)
    (req : HttpRequest) :
    (∃ m, (echoMessage errorText now (Context.reset req)).response =
      some (200, [.json (.obj [("echo", .str m), ("timestamp", .num (some now.unix))])])) ∨
    (∃ err, (echoMessage errorText now (Context.reset req)).response =
      some (400, [.json (.obj [("error", .str ("请求参数错误: " ++ errorText err))])])) := by
  rcases hbind : ShouldBindJSON (Context.reset req) ⟨""⟩ with ⟨r, _ | err⟩
  · exact Or.inl ⟨r.Message, echo_accept errorText now req r hbind⟩
  · exact Or.inr ⟨err, echo_reject errorText now req r err hbind⟩

/-- C9, amended: the registered handlers answer with bare JSON objects, not with the
envelope.  `GET /health` is answered with exactly the members `service`, `status`,
`timestamp`, `version`; `GET /api/v1/info` with `app` (`author`, `description`, `name`,
`version`), `server` (`host`, `mode`, `port`) and `timestamp`; `GET /api/v1/hello` with
`message` and `time`; `POST /api/v1/echo` with `echo` and `timestamp` on success and with
`error` alone on failure; no answer of a registered handler has a `success` member.  The
envelope with the boolean `success`, the integer `timestamp`, the payload under `data` and
the failure text under `error` is what `SuccessResponse` and `ErrorResponse` write. -/
theorem handlers_bare_objects (cfg : Config) (errorText : BindError → String) (now : Clock)
    (req : HttpRequest) :
    (req.method = "GET" → req.path = "/health" →
      ∃ c, serve cfg errorText now req = some c ∧
        c.response = some (200, [.json (.obj [("service", .str cfg.App.Name),
          ("status", .str "ok"), ("timestamp", .num (some now.unix)),
          ("version", .str cfg.App.Version)])])) ∧
    (req.method = "GET" → req.path = "/api/v1/info" →
      ∃ c, serve cfg errorText now req = some c ∧
        c.response = some (200, [.json (.obj [
          ("app", .obj [("author", .str cfg.App.Author),
            ("description", .str cfg.App.Description), ("name", .str cfg.App.Name),
            ("version", .str cfg.App.Version)]),
          ("server", .obj [("host", .str cfg.Server.Host), ("mode", .str cfg.Server.Mode),
            ("port", .num (some cfg.Server.Port))]),
          ("timestamp", .num (some now.unix))])])) ∧
    (req.method = "GET" → req.path = "/api/v1/hello" →
      ∃ c name, serve cfg errorText now req = some c ∧
        c.response = some (200, [.json (.obj [
          ("message", .str ("Hello, " ++ name ++ "!")), ("time", .str now.text)])])) ∧
    (req.method = "POST" → req.path = "/api/v1/echo" →
      ∃ c, serve cfg errorText now req = some c ∧
        ((∃ m, c.response = some (200, [.json (.obj [("echo", .str m),
            ("timestamp", .num (some now.unix))])])) ∨
         (∃ err, c.response = some (400, [.json (.obj [("error",
            .str ("请求参数错误: " ++ errorText err))])])))) ∧
    (∀ c, serve cfg errorText now req = some c → "success" ∉ c.sentKeys) ∧
    (∀ data message, ∃ msg,
      (SuccessResponse now (Context.reset req) data message).response =
        some (200, [.json (APIResponse.marshal ⟨true, msg, data, "", now.unix⟩)])) ∧
    (∀ error, (ErrorResponse now (Context.reset req) 400 error).response =
        some (400, [.json (APIResponse.marshal ⟨false, "", none, error, now.unix⟩)])) ∧
    (∀ r : APIResponse, ∃ kvs, r.marshal = .obj kvs ∧
      lookupField kvs "success" = some (.bool r.Success) ∧
      lookupField kvs "timestamp" = some (.num (some r.Timestamp)) ∧
      (∀ d, r.Data = some d → lookupField kvs "data" = some d) ∧
      (r.Error ≠ "" → lookupField kvs "error" = some (.str r.Error))) := by
  refine ⟨?_, ?_, ?_, ?_, ?_, ?_, ?_, marshal_envelope⟩
  · intro hm hp
    have hr : findRoute req.method req.path = some .healthCheck := by
      rw [hm, hp]; decide
    exact ⟨_, by simp only [serve, hr, Option.map_some', Handler.run],
      healthCheck_response cfg now req⟩
  · intro hm hp
    have hr : findRoute req.method req.path = some .getSystemInfo := by
      rw [hm, hp]; decide
    exact ⟨_, by simp only [serve, hr, Option.map_some', Handler.run],
      getSystemInfo_response cfg now req⟩
  · intro hm hp
    have hr : findRoute req.method req.path = some .sayHello := by
      rw [hm, hp]; decide
    exact ⟨_, _, by simp only [serve, hr, Option.map_some', Handler.run],
      sayHello_response now req⟩
  · intro hm hp
    have hr : findRoute req.method req.path = some .echoMessage := by
      rw [hm, hp]; decide
    exact ⟨_, by simp only [serve, hr, Option.map_some', Handler.run],
      echoMessage_response errorText now req⟩
  · intro c h
    simp only [serve, Option.map_eq_some'] at h
    obtain ⟨handler, -, rfl⟩ := h
    cases handler with
    | healthCheck =>
      simp only [Handler.run]
      rw [sentKeys_of_response _ 200 _ (healthCheck_response cfg now req)]
      simp only [Json.keys, List.map]
      decide
    | getSystemInfo =>
      simp only [Handler.run]
      rw [sentKeys_of_response _ 200 _ (getSystemInfo_response cfg now req)]
      simp only [Json.keys, List.map]
      decide
    | sayHello =>
      simp only [Handler.run]
      rw [sentKeys_of_response _ 200 _ (sayHello_response now req)]
      simp only [Json.keys, List.map]
      decide
    | echoMessage =>
      simp only [Handler.run]
      rcases echoMessage_response errorText now req with ⟨m, h⟩ | ⟨err, h⟩
      · rw [sentKeys_of_response _ 200 _ h]
        simp only [Json.keys, List.map]
        decide
      · rw [sentKeys_of_response _ 400 _ h]
        simp only [Json.keys, List.map]
        decide
  · intro data message
    cases message with
    | nil => exact ⟨"success", reset_JSON req 200 _ (by decide) (by decide)⟩
    | cons m rest => exact ⟨m, reset_JSON req 200 _ (by decide) (by decide)⟩
  · intro error
    exact reset_JSON req 400 _ (by decide) (by decide)

/-- Witness of C9: `GET /health`. -/
theorem handlers_bare_objects_witness :
    ∃ c, serve defaultConfig (fun _ => "") ⟨0, ""⟩ ⟨"GET", "/health", [], .empty⟩ = some c ∧
      c.response = some (200, [.json (.obj [("service", .str "App Server"),
        ("status", .str "ok"), ("timestamp", .num (some 0)), ("version", .str "1.0.0")])]) :=
  (handlers_bare_objects defaultConfig (fun _ => "") ⟨0, ""⟩
    ⟨"GET", "/health", [], .empty⟩).1 rfl rfl

/-- C9 as stated fails: the answer of `healthCheck` to `GET /health` is the object with
the members `service, status, timestamp, version`, with no `success` member. -/
theorem healthCheck_no_envelope :
    (serve defaultConfig (fun _ => "") ⟨0, ""⟩ ⟨"GET", "/health", [], .empty⟩).map
        Context.sentKeys = some ["service", "status", "timestamp", "version"] ∧
    "success" ∉ ["service", "status", "timestamp", "version"] := by
  decide

/-- What `Sscanf` makes of some texts for `%d`: the scan stops at the first character
that is not a digit, so `1_000` gives 1 and `8080_` gives 8080; leading spaces are
skipped; a text with no digit at its start gives an error. -/
theorem sscanfInt_examples :
    sscanfInt "1_000" = some 1 ∧ sscanfInt "8080_" = some 8080 ∧
    sscanfInt " 42abc" = some 42 ∧ sscanfInt "-7" = some (-7) ∧
    sscanfInt "abc" = none ∧ sscanfInt "_1" = none ∧ sscanfInt " " = none := by
  decide

end EleGo
